import Mathlib

/-!
# The broker's gRPC front-end (`core/broker/server.go`)

A shallow embedding of the four entry points of `brokerRPC` (`Associate`,
`Subscribe`, `Publish`, `Activate`) together with the properties the design
document states about them.

Modelling conventions.

* The `Broker` interface the adapter delegates to is not part of
  `server.go`; it is a parameter.  Its methods are state transformers on an
  arbitrary engine state `σ`.
* A Go `error` is `GoError E = Option (Error E)`; `none` is `nil`.
* A receiving stream is the finite list of results its successive `Recv`
  calls produce.  When the list is used up the call to `Recv` does not come
  back, and the entry point has not returned: the `ret` of its run is `none`.
* Every call is recorded in the trace of a run, in the order the calls are
  made.
* `go f(x)` starts a goroutine.  The statement itself is recorded in the trace
  (`Event.goHandleUplink`, `Event.goHandleDownlink`) and the frame joins the
  goroutines that have been started and have not run yet.  The call `f x` is
  made when the scheduler runs the goroutine, at any later point of the run,
  also after the entry point has returned; a `Schedule` says which goroutines
  run at which point, and every statement is about all schedules.  Calls into
  the engine are atomic.  The adapter never looks at the result of `f x`.
-/

namespace TTN

/-- The status codes of `google.golang.org/grpc/codes`. -/
inductive Codes where
  | OK | Canceled | Unknown | InvalidArgument | DeadlineExceeded | NotFound
  | AlreadyExists | PermissionDenied | ResourceExhausted | FailedPrecondition
  | Aborted | OutOfRange | Unimplemented | Internal | Unavailable | DataLoss
  | Unauthenticated
  deriving DecidableEq, Repr

/-- Non-nil Go error values: `io.EOF`, a gRPC status error, or any other
error (`E` is the type of those). -/
inductive Error (E : Type) where
  | EOF
  | rpc (c : Codes) (desc : String)
  | other (e : E)
  deriving DecidableEq, Repr

/-- The test `err == io.EOF`. -/
def Error.isEOF {E : Type} : Error E → Bool
  | .EOF => true
  | _ => false

/-- A Go value of type `error`; `none` is `nil`. -/
abbrev GoError (E : Type) := Option (Error E)

/-- The function `grpc.Errorf` (bound to `grpcErrf` in `server.go`): `nil` for
`codes.OK`, a status error otherwise. -/
def grpcErrf {E : Type} (c : Codes) (desc : String) : GoError E :=
  if c = Codes.OK then none else some (Error.rpc c desc)

/-- A receive-only Go channel of `α`, as a handle.  A nil channel is `none` in
`Option (Chan α)`. -/
structure Chan (α : Type) where
  id : Nat
  deriving DecidableEq, Repr

/-- The `Broker` interface used by `brokerRPC`.  Every method is a state
transformer on the engine state `σ`. -/
structure Broker (σ Ctx ID Up Down DUp Req Res E : Type) where
  ValidateNetworkContext : Ctx → σ → Except (Error E) ID × σ
  ActivateRouter : ID → σ → Except (Error E) (Option (Chan Down)) × σ
  DeactivateRouter : ID → σ → GoError E × σ
  HandleUplink : Up → σ → GoError E × σ
  ActivateHandler : ID → σ → Except (Error E) (Option (Chan DUp)) × σ
  DeactivateHandler : ID → σ → GoError E × σ
  HandleDownlink : Down → σ → GoError E × σ
  HandleActivation : Req → σ → Except (Error E) (Option Res) × σ

/-- The calls made in a run, on the broker and on its stream, and the `go`
statements of the entry point: `goHandleUplink` and `goHandleDownlink` start
the goroutine whose call is `handleUplink`, `handleDownlink`; `goForward`
starts the forwarding goroutine of `Associate` (whose own calls of
`stream.Send` are the result of `associateForward`). -/
inductive Event (Ctx ID Up Down DUp Req : Type) where
  | validateNetworkContext (ctx : Ctx)
  | activateRouter (id : ID)
  | deactivateRouter (id : ID)
  | activateHandler (id : ID)
  | deactivateHandler (id : ID)
  | goHandleUplink (m : Up)
  | handleUplink (m : Up)
  | goHandleDownlink (m : Down)
  | handleDownlink (m : Down)
  | handleActivation (r : Req)
  | recv
  | sendUplink (m : DUp)
  | sendAndClose
  | goForward (ch : Option (Chan Down))
  deriving DecidableEq, Repr

/-- The outcome of running an entry point: what it returned (`none` while it
has not returned), the calls it made, and the engine state it left. -/
structure Run (Ev R σ : Type) where
  ret : Option R
  trace : List Ev
  state : σ

/-- The outcome of running an entry point that starts goroutines: what it
returned (`none` while it has not returned), the calls made so far, the engine
state, and the frames whose goroutine has been started and has not run yet. -/
structure AsyncRun (Ev R σ M : Type) where
  ret : Option R
  trace : List Ev
  state : σ
  pending : List M

/-- What the scheduler does with the goroutines started by `go`.  At the
`k`-th point of a receive loop, `during k` lists the goroutines that run there,
each given by its position among the goroutines that have been started and
have not run yet; `after` lists the ones that run once the entry point has
returned.  A position that names no goroutine is skipped. -/
structure Schedule where
  during : Nat → List Nat
  after : List Nat

/-- The goroutines that ran at one point of a schedule: the frames whose call
was made, in the order of the calls, the frames still waiting, and the engine
state. -/
structure Ran (M σ : Type) where
  ran : List M
  waiting : List M
  state : σ

/-- One result of the `select` in a forwarding loop: the stream context is
done (with the value of `Context().Err()`), or the channel delivered a value
(`none` is a nil pointer, which a closed channel also yields). -/
inductive Select (M E : Type) where
  | done (ctxErr : Error E)
  | value (m : Option M)
  deriving DecidableEq, Repr

section Adapter

variable {σ Ctx ID Up Down DUp Req Res E : Type}

/-- The scheduler at one point of a run: the goroutines named by `choice` make
their call `call m`, one after the other, each on the engine state the former
left. -/
def runPending {M : Type} (call : M → σ → GoError E × σ) : List Nat → List M → σ → Ran M σ
  | [], pending, s => ⟨[], pending, s⟩
  | i :: rest, pending, s =>
    match pending[i]? with
    | none => runPending call rest pending s
    | some m =>
      let r := runPending call rest (pending.eraseIdx i) (call m s).2
      ⟨m :: r.ran, r.waiting, r.state⟩

/-- The receive loop of `Associate` (lines 51-63), started at point `k` of the
schedule with the goroutines `pending` waiting.  Goroutines may run while the
loop is in `Recv` (point `k`) and after the `go` statement (point `k + 1`). -/
def associateLoop (b : Broker σ Ctx ID Up Down DUp Req Res E) (Validate : Up → Bool)
    (sched : Nat → List Nat) :
    List (Except (Error E) Up) → Nat → List Up → σ →
      AsyncRun (Event Ctx ID Up Down DUp Req) (GoError E) σ Up
  | [], k, pending, s =>
    let g := runPending b.HandleUplink (sched k) pending s
    ⟨none, Event.recv :: g.ran.map Event.handleUplink, g.state, g.waiting⟩
  | Except.error err :: _, k, pending, s =>
    let g := runPending b.HandleUplink (sched k) pending s
    if err.isEOF then
      ⟨some none, Event.recv :: g.ran.map Event.handleUplink, g.state, g.waiting⟩
    else ⟨some (some err), Event.recv :: g.ran.map Event.handleUplink, g.state, g.waiting⟩
  | Except.ok uplink :: rest, k, pending, s =>
    let g := runPending b.HandleUplink (sched k) pending s
    if !Validate uplink then
      ⟨some (grpcErrf Codes.InvalidArgument "Invalid Uplink"),
        Event.recv :: g.ran.map Event.handleUplink, g.state, g.waiting⟩
    else
      let g2 := runPending b.HandleUplink (sched (k + 1)) (g.waiting ++ [uplink]) g.state
      let r := associateLoop b Validate sched rest (k + 2) g2.waiting g2.state
      ⟨r.ret,
        (Event.recv :: g.ran.map Event.handleUplink)
          ++ (Event.goHandleUplink uplink :: g2.ran.map Event.handleUplink) ++ r.trace,
        r.state, r.pending⟩

/-- The goroutine of `Associate` that forwards downlink (lines 33-50): the
frames it passes to `stream.Send`, and whether it has returned.  `Send n m` is
the result of the `n`-th call of `stream.Send`, made with frame `m`. -/
def associateForward (Send : Nat → Down → GoError E) (downlinkChannel : Option (Chan Down)) :
    List (Select Down E) → Nat → Bool × List Down
  | sel, n =>
    if downlinkChannel.isNone then (true, [])
    else
      match sel with
      | [] => (false, [])
      | Select.done _ :: _ => (true, [])
      | Select.value none :: rest => associateForward Send downlinkChannel rest n
      | Select.value (some downlink) :: rest =>
        if (Send n downlink).isSome then (true, [downlink])
        else
          let r := associateForward Send downlinkChannel rest (n + 1)
          (r.1, downlink :: r.2)

/-- The entry point `brokerRPC.Associate` (lines 23-64).  The deferred
`DeactivateRouter` runs when, and only when, the function returns; the
goroutines still waiting then may run after it. -/
def Associate (b : Broker σ Ctx ID Up Down DUp Req Res E) (Validate : Up → Bool)
    (BuildGRPCError : GoError E → GoError E) (sched : Schedule) (ctx : Ctx)
    (stream : List (Except (Error E) Up)) (s : σ) :
    AsyncRun (Event Ctx ID Up Down DUp Req) (GoError E) σ Up :=
  match b.ValidateNetworkContext ctx s with
  | (Except.error err, s1) =>
    ⟨some (BuildGRPCError (some err)), [Event.validateNetworkContext ctx], s1, []⟩
  | (Except.ok routerID, s1) =>
    match b.ActivateRouter routerID s1 with
    | (Except.error err, s2) =>
      ⟨some (BuildGRPCError (some err)),
        [Event.validateNetworkContext ctx, Event.activateRouter routerID], s2, []⟩
    | (Except.ok downlinkChannel, s2) =>
      let r := associateLoop b Validate sched.during stream 0 [] s2
      let head := [Event.validateNetworkContext ctx, Event.activateRouter routerID,
        Event.goForward downlinkChannel]
      match r.ret with
      | none => ⟨none, head ++ r.trace, r.state, r.pending⟩
      | some e =>
        let g := runPending b.HandleUplink sched.after r.pending
          (b.DeactivateRouter routerID r.state).2
        ⟨some e,
          head ++ r.trace ++ (Event.deactivateRouter routerID :: g.ran.map Event.handleUplink),
          g.state, g.waiting⟩

/-- The forwarding loop of `Subscribe` (lines 76-90): what it returned and the
frames it passed to `stream.Send`.  `Send n m` is the result of the `n`-th call
of `stream.Send`, made with frame `m`. -/
def subscribeLoop (Send : Nat → DUp → GoError E) (uplinkChannel : Option (Chan DUp)) :
    List (Select DUp E) → Nat → Option (GoError E) × List DUp
  | sel, n =>
    if uplinkChannel.isNone then (some none, [])
    else
      match sel with
      | [] => (none, [])
      | Select.done ctxErr :: _ => (some (some ctxErr), [])
      | Select.value none :: rest => subscribeLoop Send uplinkChannel rest n
      | Select.value (some uplink) :: rest =>
        match Send n uplink with
        | some err => (some (some err), [uplink])
        | none =>
          let r := subscribeLoop Send uplinkChannel rest (n + 1)
          (r.1, uplink :: r.2)

/-- The entry point `brokerRPC.Subscribe` (lines 66-91); its request argument
is not used by the code and is left out.  The deferred `DeactivateHandler`
runs when, and only when, the function returns. -/
def Subscribe (b : Broker σ Ctx ID Up Down DUp Req Res E)
    (BuildGRPCError : GoError E → GoError E) (Send : Nat → DUp → GoError E) (ctx : Ctx)
    (sel : List (Select DUp E)) (s : σ) :
    Run (Event Ctx ID Up Down DUp Req) (GoError E) σ :=
  match b.ValidateNetworkContext ctx s with
  | (Except.error err, s1) =>
    ⟨some (BuildGRPCError (some err)), [Event.validateNetworkContext ctx], s1⟩
  | (Except.ok handlerID, s1) =>
    match b.ActivateHandler handlerID s1 with
    | (Except.error err, s2) =>
      ⟨some (BuildGRPCError (some err)),
        [Event.validateNetworkContext ctx, Event.activateHandler handlerID], s2⟩
    | (Except.ok uplinkChannel, s2) =>
      let r := subscribeLoop Send uplinkChannel sel 0
      let head := [Event.validateNetworkContext ctx, Event.activateHandler handlerID]
      match r.1 with
      | none => ⟨none, head ++ r.2.map Event.sendUplink, s2⟩
      | some e =>
        ⟨some e, head ++ r.2.map Event.sendUplink ++ [Event.deactivateHandler handlerID],
          (b.DeactivateHandler handlerID s2).2⟩

/-- The receive loop of `Publish` (lines 98-112), started at point `k` of the
schedule with the goroutines `pending` waiting.  `SendAndClose` is the result
of `stream.SendAndClose(&empty.Empty{})` on this stream.  Goroutines may run
while the loop is in `Recv` (point `k`) and after the `go` statement (point
`k + 1`). -/
def publishLoop (b : Broker σ Ctx ID Up Down DUp Req Res E) (Validate : Down → Bool)
    (SendAndClose : GoError E) (sched : Nat → List Nat) :
    List (Except (Error E) Down) → Nat → List Down → σ →
      AsyncRun (Event Ctx ID Up Down DUp Req) (GoError E) σ Down
  | [], k, pending, s =>
    let g := runPending b.HandleDownlink (sched k) pending s
    ⟨none, Event.recv :: g.ran.map Event.handleDownlink, g.state, g.waiting⟩
  | Except.error err :: _, k, pending, s =>
    let g := runPending b.HandleDownlink (sched k) pending s
    if err.isEOF then
      ⟨some SendAndClose,
        (Event.recv :: g.ran.map Event.handleDownlink) ++ [Event.sendAndClose],
        g.state, g.waiting⟩
    else
      ⟨some (some err), Event.recv :: g.ran.map Event.handleDownlink, g.state, g.waiting⟩
  | Except.ok downlink :: rest, k, pending, s =>
    let g := runPending b.HandleDownlink (sched k) pending s
    if !Validate downlink then
      ⟨some (grpcErrf Codes.InvalidArgument "Invalid Downlink"),
        Event.recv :: g.ran.map Event.handleDownlink, g.state, g.waiting⟩
    else
      let g2 := runPending b.HandleDownlink (sched (k + 1)) (g.waiting ++ [downlink]) g.state
      let r := publishLoop b Validate SendAndClose sched rest (k + 2) g2.waiting g2.state
      ⟨r.ret,
        (Event.recv :: g.ran.map Event.handleDownlink)
          ++ (Event.goHandleDownlink downlink :: g2.ran.map Event.handleDownlink) ++ r.trace,
        r.state, r.pending⟩

/-- The entry point `brokerRPC.Publish` (lines 93-113).  The goroutines still
waiting when it returns may run after it. -/
def Publish (b : Broker σ Ctx ID Up Down DUp Req Res E) (Validate : Down → Bool)
    (BuildGRPCError : GoError E → GoError E) (SendAndClose : GoError E) (sched : Schedule)
    (ctx : Ctx) (stream : List (Except (Error E) Down)) (s : σ) :
    AsyncRun (Event Ctx ID Up Down DUp Req) (GoError E) σ Down :=
  match b.ValidateNetworkContext ctx s with
  | (Except.error err, s1) =>
    ⟨some (BuildGRPCError (some err)), [Event.validateNetworkContext ctx], s1, []⟩
  | (Except.ok _handlerID, s1) =>
    let r := publishLoop b Validate SendAndClose sched.during stream 0 [] s1
    match r.ret with
    | none => ⟨none, Event.validateNetworkContext ctx :: r.trace, r.state, r.pending⟩
    | some e =>
      let g := runPending b.HandleDownlink sched.after r.pending r.state
      ⟨some e,
        (Event.validateNetworkContext ctx :: r.trace) ++ g.ran.map Event.handleDownlink,
        g.state, g.waiting⟩

/-- The entry point `brokerRPC.Activate` (lines 115-128).  It returns the pair
`(res, err)`; a nil response is `none`. -/
def Activate (b : Broker σ Ctx ID Up Down DUp Req Res E) (Validate : Req → Bool)
    (BuildGRPCError : GoError E → GoError E) (ctx : Ctx) (req : Req) (s : σ) :
    Run (Event Ctx ID Up Down DUp Req) (Option Res × GoError E) σ :=
  match b.ValidateNetworkContext ctx s with
  | (Except.error err, s1) =>
    ⟨some (none, BuildGRPCError (some err)), [Event.validateNetworkContext ctx], s1⟩
  | (Except.ok _, s1) =>
    if !Validate req then
      ⟨some (none, grpcErrf Codes.InvalidArgument "Invalid Activation Request"),
        [Event.validateNetworkContext ctx], s1⟩
    else
      match b.HandleActivation req s1 with
      | (Except.error err, s2) =>
        ⟨some (none, BuildGRPCError (some err)),
          [Event.validateNetworkContext ctx, Event.handleActivation req], s2⟩
      | (Except.ok res, s2) =>
        ⟨some (res, none), [Event.validateNetworkContext ctx, Event.handleActivation req], s2⟩

/-! ### Projections of a trace -/

/-- The frame of a call of `broker.HandleUplink`. -/
def Event.asUplink : Event Ctx ID Up Down DUp Req → Option Up
  | Event.handleUplink m => some m
  | _ => none

/-- The frame of a statement `go b.broker.HandleUplink(uplink)`. -/
def Event.asStartedUplink : Event Ctx ID Up Down DUp Req → Option Up
  | Event.goHandleUplink m => some m
  | _ => none

/-- The frame of a statement `go b.broker.HandleDownlink(downlink)`. -/
def Event.asStartedDownlink : Event Ctx ID Up Down DUp Req → Option Down
  | Event.goHandleDownlink m => some m
  | _ => none

/-- The frame of a call of `broker.HandleDownlink`. -/
def Event.asDownlink : Event Ctx ID Up Down DUp Req → Option Down
  | Event.handleDownlink m => some m
  | _ => none

/-- The request of a call of `broker.HandleActivation`. -/
def Event.asActivation : Event Ctx ID Up Down DUp Req → Option Req
  | Event.handleActivation r => some r
  | _ => none

/-- The frame of a call of `stream.Send` made by `Subscribe`. -/
def Event.asSentUplink : Event Ctx ID Up Down DUp Req → Option DUp
  | Event.sendUplink m => some m
  | _ => none

/-- Whether an event is a call of `stream.SendAndClose`. -/
def Event.isSendAndClose : Event Ctx ID Up Down DUp Req → Bool
  | Event.sendAndClose => true
  | _ => false

/-- The frames for which a goroutine calling `broker.HandleUplink` was
started, in the order of the `go` statements. -/
def uplinksStarted (tr : List (Event Ctx ID Up Down DUp Req)) : List Up :=
  tr.filterMap Event.asStartedUplink

/-- The frames for which a goroutine calling `broker.HandleDownlink` was
started, in the order of the `go` statements. -/
def downlinksStarted (tr : List (Event Ctx ID Up Down DUp Req)) : List Down :=
  tr.filterMap Event.asStartedDownlink

/-- The frames handed to `broker.HandleUplink`, in the order of the calls. -/
def uplinksDispatched (tr : List (Event Ctx ID Up Down DUp Req)) : List Up :=
  tr.filterMap Event.asUplink

/-- The frames handed to `broker.HandleDownlink`, in the order of the calls. -/
def downlinksDispatched (tr : List (Event Ctx ID Up Down DUp Req)) : List Down :=
  tr.filterMap Event.asDownlink

/-- The requests handed to `broker.HandleActivation`, in order. -/
def activationsDispatched (tr : List (Event Ctx ID Up Down DUp Req)) : List Req :=
  tr.filterMap Event.asActivation

/-- The frames passed to `stream.Send` by `Subscribe`, in order. -/
def uplinksSent (tr : List (Event Ctx ID Up Down DUp Req)) : List DUp :=
  tr.filterMap Event.asSentUplink

/-- The number of calls of `stream.SendAndClose`. -/
def sendAndCloseCount (tr : List (Event Ctx ID Up Down DUp Req)) : Nat :=
  (tr.filter Event.isSendAndClose).length

/-- Whether an event is a call of `broker.HandleUplink`. -/
def Event.isHandleUplink : Event Ctx ID Up Down DUp Req → Bool
  | Event.handleUplink _ => true
  | _ => false

/-- Whether an event is a call of `DeactivateRouter` or `DeactivateHandler`. -/
def Event.isDeactivate : Event Ctx ID Up Down DUp Req → Bool
  | Event.deactivateRouter _ => true
  | Event.deactivateHandler _ => true
  | _ => false

/-! ### Reading a stream -/

/-- A receive result that lets the loop go on: a frame that validates. -/
def goesOn {M : Type} (Validate : M → Bool) : Except (Error E) M → Bool
  | Except.ok m => Validate m
  | Except.error _ => false

/-- The frame of a receive result, if it carries one. -/
def frameOf {M : Type} : Except (Error E) M → Option M
  | Except.ok m => some m
  | Except.error _ => none

/-- The frames received before the first EOF, receive error or invalid
frame. -/
def validFront {M : Type} (Validate : M → Bool) (stream : List (Except (Error E) M)) : List M :=
  (stream.takeWhile (goesOn Validate)).filterMap frameOf

/-- The first receive result that is an EOF, a receive error or an invalid
frame, if there is one. -/
def firstStop {M : Type} (Validate : M → Bool) (stream : List (Except (Error E) M)) :
    Option (Except (Error E) M) :=
  (stream.dropWhile (goesOn Validate)).head?

/-- A receive result that is `io.EOF`. -/
def isEOFResult {M : Type} : Except (Error E) M → Bool
  | Except.error err => err.isEOF
  | Except.ok _ => false

/-- What a loop takes from its channel before the stream context is done. -/
def Select.isValue {M : Type} : Select M E → Bool
  | Select.value _ => true
  | Select.done _ => false

/-- The non-nil frame of a `select` result, if it has one. -/
def Select.frame {M : Type} : Select M E → Option M
  | Select.value m => m
  | Select.done _ => none

/-- The non-nil frames the channel delivers before the stream context is
done, in the order the channel delivers them. -/
def framesTaken {M : Type} (sel : List (Select M E)) : List M :=
  (sel.takeWhile Select.isValue).filterMap Select.frame

/-- Whether an entry in a trace respects validation: a frame or request handed
to the engine, or to a goroutine that hands it to the engine, validates. -/
def Event.validated (VUp : Up → Bool) (VDown : Down → Bool) (VReq : Req → Bool) :
    Event Ctx ID Up Down DUp Req → Bool
  | Event.goHandleUplink m => VUp m
  | Event.handleUplink m => VUp m
  | Event.goHandleDownlink m => VDown m
  | Event.handleDownlink m => VDown m
  | Event.handleActivation r => VReq r
  | _ => true

/-- What a receive loop returns, read off the first receive result that stops
it: nothing yet when there is none, `onEOF` at `io.EOF`, the receive error
itself, or `InvalidArgument` with the text `desc` at an invalid frame. -/
def loopResult {M : Type} (onEOF : GoError E) (desc : String) :
    Option (Except (Error E) M) → Option (GoError E)
  | none => none
  | some (Except.error err) => if err.isEOF then some onEOF else some (some err)
  | some (Except.ok _) => some (grpcErrf Codes.InvalidArgument desc)

/-- The frames passed to `Send` when the frames of a list are sent one after
the other, the first by call number `n`, until a call fails: the frames up to
and including the first one whose `Send` fails. -/
def sendUntilFailure {M : Type} (Send : Nat → M → GoError E) : List M → Nat → List M
  | [], _ => []
  | m :: rest, n =>
    if (Send n m).isSome then [m] else m :: sendUntilFailure Send rest (n + 1)

/-- In-order delivery of `full` up to the first failure of `Send`: the frames
sent are an initial segment of `full`, every call but the last one succeeded,
and either all of `full` was sent or the last call failed. -/
def DeliveredInOrder {M : Type} (Send : Nat → M → GoError E) (sent full : List M) : Prop :=
  sent <+: full ∧
  (∀ i m, i + 1 < sent.length → sent[i]? = some m → Send i m = none) ∧
  (sent = full ∨ ∃ m, sent.getLast? = some m ∧ (Send (sent.length - 1) m).isSome = true)

/-! ### The uplink deduplicator

The engine behind `broker.HandleUplink` is not part of `server.go`.  The
definitions of this section follow sections 3, 4.1 and 4.2 of the design
document. -/

/-- Modelled from the spec: the engine's `UplinkFrame` (section 3), a device
identifier made of an address and a frame counter, an opaque payload, and the
metadata of one reception: signal quality, arrival timestamp and reporting
router. -/
structure UplinkFrame where
  devAddr : Nat
  fCnt : Nat
  payload : Nat
  quality : Int
  arrival : Nat
  router : Nat
  deriving DecidableEq, Repr

/-- Modelled from the spec: the transmission fingerprint the deduplicator
computes from a frame, its address and frame counter (section 3). -/
def UplinkFrame.fingerprint (f : UplinkFrame) : Nat × Nat := (f.devAddr, f.fCnt)

/-- Modelled from the spec: the engine's `DedupEntry` (section 3), the best
candidate seen so far, the reporting routers and the deadline of the window. -/
structure DedupEntry where
  best : UplinkFrame
  routers : List Nat
  deadline : Nat
  deriving DecidableEq, Repr

/-- Modelled from the spec: the state of the engine's `UplinkDeduplicator`
(section 4.2): at most one entry per fingerprint, the frames enqueued so far
into handler queues (with the handler id), the frames reported as
`UnroutableDevice`, and the frames whose handler was not active (`NotFound`). -/
structure Deduplicator where
  entries : Nat × Nat → Option DedupEntry
  delivered : List (Nat × UplinkFrame)
  unroutable : List UplinkFrame
  notFound : List (Nat × UplinkFrame)

/-- Modelled from the spec: the engine's deduplicator before any frame. -/
def Deduplicator.init : Deduplicator := ⟨fun _ => none, [], [], []⟩

/-- Modelled from the spec: the engine's action when the deadline of the
window of `fp` fires (section 4.2): the entry is discarded; its best candidate
is enqueued to the handler the directory resolves for the device, reported as
`UnroutableDevice` when the directory knows no handler, or refused with
`NotFound` when that handler has no active session (section 4.1). -/
def Deduplicator.expire (ResolveHandler : Nat → Option Nat) (active : Nat → Bool)
    (fp : Nat × Nat) (st : Deduplicator) : Deduplicator :=
  match st.entries fp with
  | none => st
  | some e =>
    let entries := Function.update st.entries fp none
    match ResolveHandler e.best.devAddr with
    | none => { st with entries := entries, unroutable := st.unroutable ++ [e.best] }
    | some h =>
      if active h then { st with entries := entries, delivered := st.delivered ++ [(h, e.best)] }
      else { st with entries := entries, notFound := st.notFound ++ [(h, e.best)] }

/-- Modelled from the spec: the entry the engine creates for a frame that opens
a window (section 4.2), with deadline `now + Tdedup`, the frame as best
candidate and its router as first reporter. -/
def DedupEntry.fresh (Tdedup : Nat) (f : UplinkFrame) : DedupEntry :=
  ⟨f, [f.router], f.arrival + Tdedup⟩

/-- Modelled from the spec: the engine's update of an entry by a further frame
of the window (section 4.2): the frame replaces the best candidate if its
quality is strictly better, and its router is recorded. -/
def DedupEntry.candidate (e : DedupEntry) (f : UplinkFrame) : DedupEntry :=
  ⟨if e.best.quality < f.quality then f else e.best, e.routers ++ [f.router], e.deadline⟩

/-- Modelled from the spec: the engine's action on receiving a frame (section
4.2).  Without an entry for the fingerprint a window is opened with deadline
`now + Tdedup` and the frame as best candidate.  With an entry still before its
deadline the frame replaces the best candidate when its quality is strictly
better, and its router is recorded.  An entry whose deadline has passed is
resolved first and the frame opens a new window. -/
def Deduplicator.receive (Tdedup : Nat) (ResolveHandler : Nat → Option Nat)
    (active : Nat → Bool) (f : UplinkFrame) (st : Deduplicator) : Deduplicator :=
  match st.entries f.fingerprint with
  | none =>
    { st with entries := Function.update st.entries f.fingerprint (some (DedupEntry.fresh Tdedup f)) }
  | some e =>
    if f.arrival < e.deadline then
      { st with entries := Function.update st.entries f.fingerprint (some (e.candidate f)) }
    else
      let st1 := Deduplicator.expire ResolveHandler active f.fingerprint st
      { st1 with entries := Function.update st1.entries f.fingerprint (some (DedupEntry.fresh Tdedup f)) }

/-- Modelled from the spec: what happens to the engine's deduplicator, a frame
is submitted by a router session or the deadline of a window fires. -/
inductive DedupEvent where
  | receive (f : UplinkFrame)
  | deadline (fp : Nat × Nat)
  deriving DecidableEq, Repr

/-- Modelled from the spec: one step of the engine's deduplicator. -/
def Deduplicator.step (Tdedup : Nat) (ResolveHandler : Nat → Option Nat)
    (active : Nat → Bool) (st : Deduplicator) : DedupEvent → Deduplicator
  | DedupEvent.receive f => Deduplicator.receive Tdedup ResolveHandler active f st
  | DedupEvent.deadline fp => Deduplicator.expire ResolveHandler active fp st

/-- Modelled from the spec: the engine's deduplicator run over a sequence of
events. -/
def Deduplicator.run (Tdedup : Nat) (ResolveHandler : Nat → Option Nat)
    (active : Nat → Bool) (st : Deduplicator) (evs : List DedupEvent) : Deduplicator :=
  evs.foldl (Deduplicator.step Tdedup ResolveHandler active) st

/-- The frames of fingerprint `fp` submitted in a sequence of events, in
arrival order. -/
def framesOf (fp : Nat × Nat) (evs : List DedupEvent) : List UplinkFrame :=
  evs.filterMap fun ev =>
    match ev with
    | DedupEvent.receive f => if f.fingerprint = fp then some f else none
    | DedupEvent.deadline _ => none

/-- The deliveries of frames of fingerprint `fp` among the frames enqueued to
handlers. -/
def deliveriesOf (fp : Nat × Nat) (l : List (Nat × UplinkFrame)) : List (Nat × UplinkFrame) :=
  l.filter fun d => decide (d.2.fingerprint = fp)

/-- The candidate with the best signal quality among `frames`, the
first-arrived one among candidates of equal quality: every earlier frame is
strictly worse and no later frame is better. -/
def IsBestCandidate (d : UplinkFrame) (frames : List UplinkFrame) : Prop :=
  ∃ pre post, frames = pre ++ d :: post ∧
    (∀ f ∈ pre, f.quality < d.quality) ∧ (∀ f ∈ post, f.quality ≤ d.quality)

/-- Every entry is stored under the fingerprint of its best candidate. -/
def Deduplicator.WellKeyed (st : Deduplicator) : Prop :=
  ∀ fp e, st.entries fp = some e → e.best.fingerprint = fp

/-- The state of a deduplicator that is collecting the frames `acc` of
fingerprint `fp` in a window of deadline `D`. -/
def Deduplicator.Collecting (fp : Nat × Nat) (D : Nat) (base : List (Nat × UplinkFrame))
    (st : Deduplicator) (acc : List UplinkFrame) : Prop :=
  st.WellKeyed ∧ deliveriesOf fp st.delivered = base ∧
    ∃ e, st.entries fp = some e ∧ e.deadline = D ∧ IsBestCandidate e.best acc

/-! ### A small engine to run the entry points on -/

/-- The state of the demonstration engine: the active router and handler ids
and the frames handled so far. -/
structure Registry where
  routers : List Nat
  handlers : List Nat
  uplinks : List Nat
  downlinks : List Nat
  deriving DecidableEq, Repr

/-- A demonstration engine over `Registry`.  Context `0` is not authenticated,
an id can be active once, activation request `0` is refused. -/
def demoBroker : Broker Registry Nat Nat Nat Nat Nat Nat Nat Nat where
  ValidateNetworkContext := fun ctx s =>
    (if ctx = 0 then Except.error (Error.rpc Codes.Unauthenticated "no identity")
      else Except.ok ctx, s)
  ActivateRouter := fun id s =>
    if id ∈ s.routers then (Except.error (Error.other 1), s)
    else (Except.ok (some ⟨id⟩), { s with routers := id :: s.routers })
  DeactivateRouter := fun id s => (none, { s with routers := s.routers.erase id })
  HandleUplink := fun m s => (none, { s with uplinks := s.uplinks ++ [m] })
  ActivateHandler := fun id s =>
    if id ∈ s.handlers then (Except.error (Error.other 1), s)
    else (Except.ok (some ⟨id⟩), { s with handlers := id :: s.handlers })
  DeactivateHandler := fun id s => (none, { s with handlers := s.handlers.erase id })
  HandleDownlink := fun m s => (none, { s with downlinks := s.downlinks ++ [m] })
  HandleActivation := fun r s =>
    (if r = 1 then Except.error (Error.other 2) else Except.ok (some (r + 100)), s)

/-- The demonstration validity predicate: frame `0` is malformed. -/
def demoValidate (m : Nat) : Bool := m != 0

/-- A demonstration `BuildGRPCError`: every error becomes an `Unknown` status
error, `nil` stays `nil`. -/
def demoBuildGRPCError : GoError Nat → GoError Nat
  | none => none
  | some _ => some (Error.rpc Codes.Unknown "error")

/-- The empty registry. -/
def demoInit : Registry := ⟨[], [], [], []⟩

/-- A demonstration `stream.Send` that always succeeds. -/
def demoSend : Nat → Nat → GoError Nat := fun _ _ => none

/-- A schedule that runs no goroutine before the entry point has returned and
then runs the second waiting goroutine before the first. -/
def demoLate : Schedule := ⟨fun _ => [], [1, 0]⟩

/-- A schedule that runs each goroutine right after its `go` statement. -/
def demoEager : Schedule := ⟨fun _ => [0], [0]⟩

/-- Router 1 reports a transmission with quality -80 at time 0. -/
def demoFrameA : UplinkFrame := ⟨42, 7, 1000, -80, 0, 1⟩

/-- Router 2 reports the same transmission with quality -60 at time 50. -/
def demoFrameB : UplinkFrame := ⟨42, 7, 1000, -60, 50, 2⟩

/-! ## Lemmas on the scheduler -/

theorem eraseIdx_perm {M : Type} (pending : List M) (i : Nat) (m : M)
    (h : pending[i]? = some m) : (m :: pending.eraseIdx i).Perm pending := by
  induction pending generalizing i with
  | nil => simp at h
  | cons a l ih =>
    cases i with
    | zero =>
      simp at h
      subst h
      simp
    | succ j =>
      simp at h
      have hj := ih j h
      simp only [List.eraseIdx_cons_succ]
      exact (List.Perm.swap a m _).trans (hj.cons a)

theorem runPending_perm {M : Type} (call : M → σ → GoError E × σ) (choice : List Nat)
    (pending : List M) (s : σ) :
    ((runPending call choice pending s).ran ++ (runPending call choice pending s).waiting).Perm
      pending := by
  induction choice generalizing pending s with
  | nil => simp [runPending]
  | cons i rest ih =>
    cases h : pending[i]? with
    | none =>
      simp only [runPending, h]
      exact ih pending s
    | some m =>
      simp only [runPending, h]
      exact ((ih (pending.eraseIdx i) (call m s).2).cons m).trans (eraseIdx_perm pending i m h)

theorem runPending_indep {M : Type} (call call2 : M → σ → GoError E × σ) (choice : List Nat)
    (pending : List M) (s s2 : σ) :
    (runPending call choice pending s).ran = (runPending call2 choice pending s2).ran ∧
    (runPending call choice pending s).waiting
      = (runPending call2 choice pending s2).waiting := by
  induction choice generalizing pending s s2 with
  | nil => simp [runPending]
  | cons i rest ih =>
    cases h : pending[i]? with
    | none =>
      simp only [runPending, h]
      exact ih pending s s2
    | some m =>
      simp only [runPending, h]
      have := ih (pending.eraseIdx i) (call m s).2 (call2 m s2).2
      exact ⟨by rw [this.1], this.2⟩

theorem started_of_uplink_calls (l : List Up) :
    List.filterMap (Event.asStartedUplink ∘ (Event.handleUplink : Up → Event Ctx ID Up Down DUp Req)) l
      = [] := by
  induction l with
  | nil => rfl
  | cons x xs ih => simp [Event.asStartedUplink, ih]

theorem dispatched_of_uplink_calls (l : List Up) :
    List.filterMap (Event.asUplink ∘ (Event.handleUplink : Up → Event Ctx ID Up Down DUp Req)) l
      = l := by
  induction l with
  | nil => rfl
  | cons x xs ih => simp [Event.asUplink, ih]

theorem started_of_downlink_calls (l : List Down) :
    List.filterMap (Event.asStartedDownlink ∘ (Event.handleDownlink : Down → Event Ctx ID Up Down DUp Req)) l
      = [] := by
  induction l with
  | nil => rfl
  | cons x xs ih => simp [Event.asStartedDownlink, ih]

theorem dispatched_of_downlink_calls (l : List Down) :
    List.filterMap (Event.asDownlink ∘ (Event.handleDownlink : Down → Event Ctx ID Up Down DUp Req)) l
      = l := by
  induction l with
  | nil => rfl
  | cons x xs ih => simp [Event.asDownlink, ih]

theorem closes_of_downlink_calls (l : List Down) :
    List.filter (Event.isSendAndClose ∘ (Event.handleDownlink : Down → Event Ctx ID Up Down DUp Req)) l
      = [] := by
  induction l with
  | nil => rfl
  | cons x xs ih => simp [Event.isSendAndClose]

theorem validFront_valid {M : Type} (Validate : M → Bool)
    (stream : List (Except (Error E) M)) :
    ∀ m ∈ validFront Validate stream, Validate m = true := by
  intro m hm
  simp only [validFront, List.mem_filterMap] at hm
  obtain ⟨x, hx, hf⟩ := hm
  have hgo := List.mem_takeWhile_imp hx
  cases x with
  | error err => simp [frameOf] at hf
  | ok y =>
    simp [frameOf] at hf
    subst hf
    simpa [goesOn] using hgo

/-! ## Lemmas on the receive loops -/

theorem associateLoop_shape (b : Broker σ Ctx ID Up Down DUp Req Res E) (Validate : Up → Bool)
    (sched : Nat → List Nat) (stream : List (Except (Error E) Up)) (k : Nat)
    (pending : List Up) (s : σ) :
    ∀ e ∈ (associateLoop b Validate sched stream k pending s).trace,
      e = Event.recv ∨ (∃ m, e = Event.goHandleUplink m) ∨ (∃ m, e = Event.handleUplink m) := by
  induction stream generalizing k pending s with
  | nil =>
    intro e he
    simp [associateLoop] at he
    rcases he with he | ⟨m, _, he⟩
    · exact Or.inl he
    · exact Or.inr (Or.inr ⟨m, he.symm⟩)
  | cons r rest ih =>
    intro e he
    cases r with
    | error err =>
      by_cases h : err.isEOF = true <;> simp [associateLoop, h] at he <;>
        rcases he with he | ⟨m, _, he⟩
      · exact Or.inl he
      · exact Or.inr (Or.inr ⟨m, he.symm⟩)
      · exact Or.inl he
      · exact Or.inr (Or.inr ⟨m, he.symm⟩)
    | ok u =>
      by_cases h : Validate u = true
      · simp [associateLoop, h] at he
        rcases he with he | ⟨m, _, he⟩ | he | ⟨m, _, he⟩ | he
        · exact Or.inl he
        · exact Or.inr (Or.inr ⟨m, he.symm⟩)
        · exact Or.inr (Or.inl ⟨u, he⟩)
        · exact Or.inr (Or.inr ⟨m, he.symm⟩)
        · exact ih _ _ _ e he
      · simp [associateLoop, h] at he
        rcases he with he | ⟨m, _, he⟩
        · exact Or.inl he
        · exact Or.inr (Or.inr ⟨m, he.symm⟩)

theorem associateLoop_started (b : Broker σ Ctx ID Up Down DUp Req Res E)
    (Validate : Up → Bool) (sched : Nat → List Nat) (stream : List (Except (Error E) Up))
    (k : Nat) (pending : List Up) (s : σ) :
    uplinksStarted (associateLoop b Validate sched stream k pending s).trace
      = validFront Validate stream := by
  induction stream generalizing k pending s with
  | nil =>
    simp [associateLoop, uplinksStarted, validFront, Event.asStartedUplink,
      started_of_uplink_calls]
  | cons r rest ih =>
    cases r with
    | error err =>
      by_cases h : err.isEOF = true <;>
        simp [associateLoop, h, uplinksStarted, validFront, goesOn, Event.asStartedUplink,
          started_of_uplink_calls]
    | ok u =>
      by_cases h : Validate u = true
      · have := ih (k + 2)
          (runPending b.HandleUplink (sched (k + 1))
            ((runPending b.HandleUplink (sched k) pending s).waiting ++ [u])
            (runPending b.HandleUplink (sched k) pending s).state).waiting
          (runPending b.HandleUplink (sched (k + 1))
            ((runPending b.HandleUplink (sched k) pending s).waiting ++ [u])
            (runPending b.HandleUplink (sched k) pending s).state).state
        simp only [uplinksStarted, validFront] at this
        simp [associateLoop, h, uplinksStarted, validFront, goesOn, frameOf,
          Event.asStartedUplink, started_of_uplink_calls, this]
      · simp [associateLoop, h, uplinksStarted, validFront, goesOn, Event.asStartedUplink,
          started_of_uplink_calls]

theorem associateLoop_perm (b : Broker σ Ctx ID Up Down DUp Req Res E)
    (Validate : Up → Bool) (sched : Nat → List Nat) (stream : List (Except (Error E) Up))
    (k : Nat) (pending : List Up) (s : σ) :
    (uplinksDispatched (associateLoop b Validate sched stream k pending s).trace
      ++ (associateLoop b Validate sched stream k pending s).pending).Perm
      (pending ++ validFront Validate stream) := by
  induction stream generalizing k pending s with
  | nil =>
    simpa [associateLoop, uplinksDispatched, validFront, Event.asUplink,
      dispatched_of_uplink_calls] using runPending_perm b.HandleUplink (sched k) pending s
  | cons r rest ih =>
    have hg := runPending_perm b.HandleUplink (sched k) pending s
    cases r with
    | error err =>
      by_cases h : err.isEOF = true <;>
        simpa [associateLoop, h, uplinksDispatched, validFront, goesOn, Event.asUplink,
          dispatched_of_uplink_calls] using hg
    | ok u =>
      by_cases h : Validate u = true
      · have hg2 := runPending_perm b.HandleUplink (sched (k + 1))
          ((runPending b.HandleUplink (sched k) pending s).waiting ++ [u])
          (runPending b.HandleUplink (sched k) pending s).state
        have hr := ih (k + 2)
          (runPending b.HandleUplink (sched (k + 1))
            ((runPending b.HandleUplink (sched k) pending s).waiting ++ [u])
            (runPending b.HandleUplink (sched k) pending s).state).waiting
          (runPending b.HandleUplink (sched (k + 1))
            ((runPending b.HandleUplink (sched k) pending s).waiting ++ [u])
            (runPending b.HandleUplink (sched k) pending s).state).state
        simp only [uplinksDispatched, validFront] at hr
        simp only [associateLoop, h, uplinksDispatched, validFront, goesOn, frameOf,
          Event.asUplink, dispatched_of_uplink_calls, List.filterMap_append, List.filterMap_map,
          List.filterMap_cons, List.takeWhile_cons, Bool.not_true, Bool.false_eq_true,
          if_false, if_true, List.nil_append, List.append_assoc]
        classical
        rw [List.perm_iff_count] at hg hg2 hr ⊢
        intro a
        have h1 := hg a
        have h2 := hg2 a
        have h3 := hr a
        simp only [List.count_append, List.count_cons, List.count_nil] at h1 h2 h3 ⊢
        omega
      · simpa [associateLoop, h, uplinksDispatched, validFront, goesOn, Event.asUplink,
          dispatched_of_uplink_calls] using hg

theorem associateLoop_ret (b : Broker σ Ctx ID Up Down DUp Req Res E)
    (Validate : Up → Bool) (sched : Nat → List Nat) (stream : List (Except (Error E) Up))
    (k : Nat) (pending : List Up) (s : σ) :
    (associateLoop b Validate sched stream k pending s).ret
      = loopResult none "Invalid Uplink" (firstStop Validate stream) := by
  induction stream generalizing k pending s with
  | nil => simp [associateLoop, loopResult, firstStop]
  | cons r rest ih =>
    cases r with
    | error err =>
      by_cases h : err.isEOF = true <;>
        simp [associateLoop, h, loopResult, firstStop, goesOn]
    | ok m =>
      by_cases h : Validate m = true
      · simp only [associateLoop, h, firstStop, goesOn, Bool.not_true, Bool.false_eq_true,
          if_false, List.dropWhile_cons, if_true]
        exact ih _ _ _
      · simp [associateLoop, h, loopResult, firstStop, goesOn]

theorem associateLoop_indep (b b2 : Broker σ Ctx ID Up Down DUp Req Res E)
    (Validate : Up → Bool) (sched : Nat → List Nat) (stream : List (Except (Error E) Up))
    (k : Nat) (pending : List Up) (s s2 : σ) :
    (associateLoop b Validate sched stream k pending s).trace
      = (associateLoop b2 Validate sched stream k pending s2).trace ∧
    (associateLoop b Validate sched stream k pending s).pending
      = (associateLoop b2 Validate sched stream k pending s2).pending := by
  induction stream generalizing k pending s s2 with
  | nil =>
    obtain ⟨h1, h2⟩ := runPending_indep b.HandleUplink b2.HandleUplink (sched k) pending s s2
    simp [associateLoop, h1, h2]
  | cons r rest ih =>
    obtain ⟨h1, h2⟩ := runPending_indep b.HandleUplink b2.HandleUplink (sched k) pending s s2
    cases r with
    | error err => by_cases h : err.isEOF = true <;> simp [associateLoop, h, h1, h2]
    | ok m =>
      by_cases h : Validate m = true
      · obtain ⟨h3, h4⟩ := runPending_indep b.HandleUplink b2.HandleUplink (sched (k + 1))
          ((runPending b2.HandleUplink (sched k) pending s2).waiting ++ [m])
          (runPending b.HandleUplink (sched k) pending s).state
          (runPending b2.HandleUplink (sched k) pending s2).state
        simp only [associateLoop, h, Bool.not_true, Bool.false_eq_true, if_false]
        rw [h1, h2, h3, h4]
        obtain ⟨h5, h6⟩ := ih (k + 2)
          (runPending b2.HandleUplink (sched (k + 1))
            ((runPending b2.HandleUplink (sched k) pending s2).waiting ++ [m])
            (runPending b2.HandleUplink (sched k) pending s2).state).waiting
          (runPending b.HandleUplink (sched (k + 1))
            ((runPending b2.HandleUplink (sched k) pending s2).waiting ++ [m])
            (runPending b.HandleUplink (sched k) pending s).state).state
          (runPending b2.HandleUplink (sched (k + 1))
            ((runPending b2.HandleUplink (sched k) pending s2).waiting ++ [m])
            (runPending b2.HandleUplink (sched k) pending s2).state).state
        exact ⟨by rw [h5], h6⟩
      · simp [associateLoop, h, h1, h2]

theorem publishLoop_shape (b : Broker σ Ctx ID Up Down DUp Req Res E) (Validate : Down → Bool)
    (sac : GoError E) (sched : Nat → List Nat) (stream : List (Except (Error E) Down))
    (k : Nat) (pending : List Down) (s : σ) :
    ∀ e ∈ (publishLoop b Validate sac sched stream k pending s).trace,
      e = Event.recv ∨ e = Event.sendAndClose ∨ (∃ m, e = Event.goHandleDownlink m) ∨
        (∃ m, e = Event.handleDownlink m) := by
  induction stream generalizing k pending s with
  | nil =>
    intro e he
    simp [publishLoop] at he
    rcases he with he | ⟨m, _, he⟩
    · exact Or.inl he
    · exact Or.inr (Or.inr (Or.inr ⟨m, he.symm⟩))
  | cons r rest ih =>
    intro e he
    cases r with
    | error err =>
      by_cases h : err.isEOF = true
      · simp [publishLoop, h] at he
        rcases he with he | ⟨m, _, he⟩ | he
        · exact Or.inl he
        · exact Or.inr (Or.inr (Or.inr ⟨m, he.symm⟩))
        · exact Or.inr (Or.inl he)
      · simp [publishLoop, h] at he
        rcases he with he | ⟨m, _, he⟩
        · exact Or.inl he
        · exact Or.inr (Or.inr (Or.inr ⟨m, he.symm⟩))
    | ok u =>
      by_cases h : Validate u = true
      · simp [publishLoop, h] at he
        rcases he with he | ⟨m, _, he⟩ | he | ⟨m, _, he⟩ | he
        · exact Or.inl he
        · exact Or.inr (Or.inr (Or.inr ⟨m, he.symm⟩))
        · exact Or.inr (Or.inr (Or.inl ⟨u, he⟩))
        · exact Or.inr (Or.inr (Or.inr ⟨m, he.symm⟩))
        · exact ih _ _ _ e he
      · simp [publishLoop, h] at he
        rcases he with he | ⟨m, _, he⟩
        · exact Or.inl he
        · exact Or.inr (Or.inr (Or.inr ⟨m, he.symm⟩))

theorem publishLoop_started (b : Broker σ Ctx ID Up Down DUp Req Res E)
    (Validate : Down → Bool) (sac : GoError E) (sched : Nat → List Nat)
    (stream : List (Except (Error E) Down)) (k : Nat) (pending : List Down) (s : σ) :
    downlinksStarted (publishLoop b Validate sac sched stream k pending s).trace
      = validFront Validate stream := by
  induction stream generalizing k pending s with
  | nil =>
    simp [publishLoop, downlinksStarted, validFront, Event.asStartedDownlink,
      started_of_downlink_calls]
  | cons r rest ih =>
    cases r with
    | error err =>
      by_cases h : err.isEOF = true <;>
        simp [publishLoop, h, downlinksStarted, validFront, goesOn, Event.asStartedDownlink,
          started_of_downlink_calls]
    | ok u =>
      by_cases h : Validate u = true
      · have := ih (k + 2)
          (runPending b.HandleDownlink (sched (k + 1))
            ((runPending b.HandleDownlink (sched k) pending s).waiting ++ [u])
            (runPending b.HandleDownlink (sched k) pending s).state).waiting
          (runPending b.HandleDownlink (sched (k + 1))
            ((runPending b.HandleDownlink (sched k) pending s).waiting ++ [u])
            (runPending b.HandleDownlink (sched k) pending s).state).state
        simp only [downlinksStarted, validFront] at this
        simp [publishLoop, h, downlinksStarted, validFront, goesOn, frameOf,
          Event.asStartedDownlink, started_of_downlink_calls, this]
      · simp [publishLoop, h, downlinksStarted, validFront, goesOn, Event.asStartedDownlink,
          started_of_downlink_calls]

theorem publishLoop_perm (b : Broker σ Ctx ID Up Down DUp Req Res E)
    (Validate : Down → Bool) (sac : GoError E) (sched : Nat → List Nat)
    (stream : List (Except (Error E) Down)) (k : Nat) (pending : List Down) (s : σ) :
    (downlinksDispatched (publishLoop b Validate sac sched stream k pending s).trace
      ++ (publishLoop b Validate sac sched stream k pending s).pending).Perm
      (pending ++ validFront Validate stream) := by
  induction stream generalizing k pending s with
  | nil =>
    simpa [publishLoop, downlinksDispatched, validFront, Event.asDownlink,
      dispatched_of_downlink_calls] using runPending_perm b.HandleDownlink (sched k) pending s
  | cons r rest ih =>
    have hg := runPending_perm b.HandleDownlink (sched k) pending s
    cases r with
    | error err =>
      by_cases h : err.isEOF = true <;>
        simpa [publishLoop, h, downlinksDispatched, validFront, goesOn, Event.asDownlink,
          dispatched_of_downlink_calls] using hg
    | ok u =>
      by_cases h : Validate u = true
      · have hg2 := runPending_perm b.HandleDownlink (sched (k + 1))
          ((runPending b.HandleDownlink (sched k) pending s).waiting ++ [u])
          (runPending b.HandleDownlink (sched k) pending s).state
        have hr := ih (k + 2)
          (runPending b.HandleDownlink (sched (k + 1))
            ((runPending b.HandleDownlink (sched k) pending s).waiting ++ [u])
            (runPending b.HandleDownlink (sched k) pending s).state).waiting
          (runPending b.HandleDownlink (sched (k + 1))
            ((runPending b.HandleDownlink (sched k) pending s).waiting ++ [u])
            (runPending b.HandleDownlink (sched k) pending s).state).state
        simp only [downlinksDispatched, validFront] at hr
        simp only [publishLoop, h, downlinksDispatched, validFront, goesOn, frameOf,
          Event.asDownlink, dispatched_of_downlink_calls, List.filterMap_append,
          List.filterMap_map,
          List.filterMap_cons, List.takeWhile_cons, Bool.not_true, Bool.false_eq_true,
          if_false, if_true, List.nil_append, List.append_assoc]
        classical
        rw [List.perm_iff_count] at hg hg2 hr ⊢
        intro a
        have h1 := hg a
        have h2 := hg2 a
        have h3 := hr a
        simp only [List.count_append, List.count_cons, List.count_nil] at h1 h2 h3 ⊢
        omega
      · simpa [publishLoop, h, downlinksDispatched, validFront, goesOn, Event.asDownlink,
          dispatched_of_downlink_calls] using hg

theorem publishLoop_ret (b : Broker σ Ctx ID Up Down DUp Req Res E)
    (Validate : Down → Bool) (sac : GoError E) (sched : Nat → List Nat)
    (stream : List (Except (Error E) Down)) (k : Nat) (pending : List Down) (s : σ) :
    (publishLoop b Validate sac sched stream k pending s).ret
      = loopResult sac "Invalid Downlink" (firstStop Validate stream) := by
  induction stream generalizing k pending s with
  | nil => simp [publishLoop, loopResult, firstStop]
  | cons r rest ih =>
    cases r with
    | error err =>
      by_cases h : err.isEOF = true <;>
        simp [publishLoop, h, loopResult, firstStop, goesOn]
    | ok m =>
      by_cases h : Validate m = true
      · simp only [publishLoop, h, firstStop, goesOn, Bool.not_true, Bool.false_eq_true,
          if_false, List.dropWhile_cons, if_true]
        exact ih _ _ _
      · simp [publishLoop, h, loopResult, firstStop, goesOn]

theorem publishLoop_indep (b b2 : Broker σ Ctx ID Up Down DUp Req Res E)
    (Validate : Down → Bool) (sac : GoError E) (sched : Nat → List Nat)
    (stream : List (Except (Error E) Down)) (k : Nat) (pending : List Down) (s s2 : σ) :
    (publishLoop b Validate sac sched stream k pending s).trace
      = (publishLoop b2 Validate sac sched stream k pending s2).trace ∧
    (publishLoop b Validate sac sched stream k pending s).pending
      = (publishLoop b2 Validate sac sched stream k pending s2).pending := by
  induction stream generalizing k pending s s2 with
  | nil =>
    obtain ⟨h1, h2⟩ := runPending_indep b.HandleDownlink b2.HandleDownlink (sched k) pending s s2
    simp [publishLoop, h1, h2]
  | cons r rest ih =>
    obtain ⟨h1, h2⟩ := runPending_indep b.HandleDownlink b2.HandleDownlink (sched k) pending s s2
    cases r with
    | error err => by_cases h : err.isEOF = true <;> simp [publishLoop, h, h1, h2]
    | ok m =>
      by_cases h : Validate m = true
      · obtain ⟨h3, h4⟩ := runPending_indep b.HandleDownlink b2.HandleDownlink (sched (k + 1))
          ((runPending b2.HandleDownlink (sched k) pending s2).waiting ++ [m])
          (runPending b.HandleDownlink (sched k) pending s).state
          (runPending b2.HandleDownlink (sched k) pending s2).state
        simp only [publishLoop, h, Bool.not_true, Bool.false_eq_true, if_false]
        rw [h1, h2, h3, h4]
        obtain ⟨h5, h6⟩ := ih (k + 2)
          (runPending b2.HandleDownlink (sched (k + 1))
            ((runPending b2.HandleDownlink (sched k) pending s2).waiting ++ [m])
            (runPending b2.HandleDownlink (sched k) pending s2).state).waiting
          (runPending b.HandleDownlink (sched (k + 1))
            ((runPending b2.HandleDownlink (sched k) pending s2).waiting ++ [m])
            (runPending b.HandleDownlink (sched k) pending s).state).state
          (runPending b2.HandleDownlink (sched (k + 1))
            ((runPending b2.HandleDownlink (sched k) pending s2).waiting ++ [m])
            (runPending b2.HandleDownlink (sched k) pending s2).state).state
        exact ⟨by rw [h5], h6⟩
      · simp [publishLoop, h, h1, h2]

theorem publishLoop_sendAndClose (b : Broker σ Ctx ID Up Down DUp Req Res E)
    (Validate : Down → Bool) (sac : GoError E) (sched : Nat → List Nat)
    (stream : List (Except (Error E) Down)) (k : Nat) (pending : List Down) (s : σ) :
    sendAndCloseCount (publishLoop b Validate sac sched stream k pending s).trace
      = if (firstStop Validate stream).any isEOFResult then 1 else 0 := by
  induction stream generalizing k pending s with
  | nil =>
    simp [publishLoop, sendAndCloseCount, firstStop, Event.isSendAndClose,
      closes_of_downlink_calls, List.filter_map]
  | cons r rest ih =>
    cases r with
    | error err =>
      by_cases h : err.isEOF = true <;>
        simp [publishLoop, h, sendAndCloseCount, firstStop, goesOn, isEOFResult,
          Event.isSendAndClose, closes_of_downlink_calls, List.filter_map]
    | ok m =>
      by_cases h : Validate m = true
      · have := ih (k + 2)
          (runPending b.HandleDownlink (sched (k + 1))
            ((runPending b.HandleDownlink (sched k) pending s).waiting ++ [m])
            (runPending b.HandleDownlink (sched k) pending s).state).waiting
          (runPending b.HandleDownlink (sched (k + 1))
            ((runPending b.HandleDownlink (sched k) pending s).waiting ++ [m])
            (runPending b.HandleDownlink (sched k) pending s).state).state
        simp only [sendAndCloseCount, firstStop] at this
        simp [publishLoop, h, sendAndCloseCount, firstStop, goesOn, Event.isSendAndClose,
          closes_of_downlink_calls, List.filter_map, this]
      · simp [publishLoop, h, sendAndCloseCount, firstStop, goesOn, isEOFResult,
          Event.isSendAndClose, closes_of_downlink_calls, List.filter_map]

/-! ## Unfolding the entry points -/

theorem Associate_unauthenticated (b : Broker σ Ctx ID Up Down DUp Req Res E)
    (Validate : Up → Bool) (build : GoError E → GoError E) (sched : Schedule) (ctx : Ctx)
    (stream : List (Except (Error E) Up)) (s s1 : σ) (err : Error E)
    (hv : b.ValidateNetworkContext ctx s = (Except.error err, s1)) :
    Associate b Validate build sched ctx stream s
      = ⟨some (build (some err)), [Event.validateNetworkContext ctx], s1, []⟩ := by
  simp [Associate, hv]

theorem Associate_rejected (b : Broker σ Ctx ID Up Down DUp Req Res E)
    (Validate : Up → Bool) (build : GoError E → GoError E) (sched : Schedule) (ctx : Ctx)
    (stream : List (Except (Error E) Up)) (s s1 s2 : σ) (id : ID) (err : Error E)
    (hv : b.ValidateNetworkContext ctx s = (Except.ok id, s1))
    (ha : b.ActivateRouter id s1 = (Except.error err, s2)) :
    Associate b Validate build sched ctx stream s
      = ⟨some (build (some err)),
          [Event.validateNetworkContext ctx, Event.activateRouter id], s2, []⟩ := by
  simp [Associate, hv, ha]

theorem Associate_blocked (b : Broker σ Ctx ID Up Down DUp Req Res E)
    (Validate : Up → Bool) (build : GoError E → GoError E) (sched : Schedule) (ctx : Ctx)
    (stream : List (Except (Error E) Up)) (s s1 s2 : σ) (id : ID) (ch : Option (Chan Down))
    (hv : b.ValidateNetworkContext ctx s = (Except.ok id, s1))
    (ha : b.ActivateRouter id s1 = (Except.ok ch, s2))
    (hr : (associateLoop b Validate sched.during stream 0 [] s2).ret = none) :
    Associate b Validate build sched ctx stream s
      = ⟨none, [Event.validateNetworkContext ctx, Event.activateRouter id, Event.goForward ch]
          ++ (associateLoop b Validate sched.during stream 0 [] s2).trace,
          (associateLoop b Validate sched.during stream 0 [] s2).state,
          (associateLoop b Validate sched.during stream 0 [] s2).pending⟩ := by
  simp [Associate, hv, ha, hr]

theorem Associate_returned (b : Broker σ Ctx ID Up Down DUp Req Res E)
    (Validate : Up → Bool) (build : GoError E → GoError E) (sched : Schedule) (ctx : Ctx)
    (stream : List (Except (Error E) Up)) (s s1 s2 : σ) (id : ID) (ch : Option (Chan Down))
    (e : GoError E)
    (hv : b.ValidateNetworkContext ctx s = (Except.ok id, s1))
    (ha : b.ActivateRouter id s1 = (Except.ok ch, s2))
    (hr : (associateLoop b Validate sched.during stream 0 [] s2).ret = some e) :
    Associate b Validate build sched ctx stream s
      = ⟨some e, [Event.validateNetworkContext ctx, Event.activateRouter id, Event.goForward ch]
          ++ (associateLoop b Validate sched.during stream 0 [] s2).trace
          ++ (Event.deactivateRouter id ::
            (runPending b.HandleUplink sched.after
              (associateLoop b Validate sched.during stream 0 [] s2).pending
              (b.DeactivateRouter id
                (associateLoop b Validate sched.during stream 0 [] s2).state).2).ran.map
                  Event.handleUplink),
          (runPending b.HandleUplink sched.after
            (associateLoop b Validate sched.during stream 0 [] s2).pending
            (b.DeactivateRouter id
              (associateLoop b Validate sched.during stream 0 [] s2).state).2).state,
          (runPending b.HandleUplink sched.after
            (associateLoop b Validate sched.during stream 0 [] s2).pending
            (b.DeactivateRouter id
              (associateLoop b Validate sched.during stream 0 [] s2).state).2).waiting⟩ := by
  simp [Associate, hv, ha, hr]

theorem Associate_ret (b : Broker σ Ctx ID Up Down DUp Req Res E)
    (Validate : Up → Bool) (build : GoError E → GoError E) (sched : Schedule) (ctx : Ctx)
    (stream : List (Except (Error E) Up)) (s s1 s2 : σ) (id : ID) (ch : Option (Chan Down))
    (hv : b.ValidateNetworkContext ctx s = (Except.ok id, s1))
    (ha : b.ActivateRouter id s1 = (Except.ok ch, s2)) :
    (Associate b Validate build sched ctx stream s).ret
      = loopResult none "Invalid Uplink" (firstStop Validate stream) := by
  rw [← associateLoop_ret b Validate sched.during stream 0 [] s2]
  cases hr : (associateLoop b Validate sched.during stream 0 [] s2).ret with
  | none => rw [Associate_blocked b Validate build sched ctx stream s s1 s2 id ch hv ha hr]
  | some e => rw [Associate_returned b Validate build sched ctx stream s s1 s2 id ch e hv ha hr]

theorem Associate_started (b : Broker σ Ctx ID Up Down DUp Req Res E)
    (Validate : Up → Bool) (build : GoError E → GoError E) (sched : Schedule) (ctx : Ctx)
    (stream : List (Except (Error E) Up)) (s s1 s2 : σ) (id : ID) (ch : Option (Chan Down))
    (hv : b.ValidateNetworkContext ctx s = (Except.ok id, s1))
    (ha : b.ActivateRouter id s1 = (Except.ok ch, s2)) :
    uplinksStarted (Associate b Validate build sched ctx stream s).trace
      = validFront Validate stream := by
  rw [← associateLoop_started b Validate sched.during stream 0 [] s2]
  cases hr : (associateLoop b Validate sched.during stream 0 [] s2).ret with
  | none =>
    rw [Associate_blocked b Validate build sched ctx stream s s1 s2 id ch hv ha hr]
    simp [uplinksStarted, Event.asStartedUplink]
  | some e =>
    rw [Associate_returned b Validate build sched ctx stream s s1 s2 id ch e hv ha hr]
    simp [uplinksStarted, Event.asStartedUplink, started_of_uplink_calls]

theorem Associate_perm (b : Broker σ Ctx ID Up Down DUp Req Res E)
    (Validate : Up → Bool) (build : GoError E → GoError E) (sched : Schedule) (ctx : Ctx)
    (stream : List (Except (Error E) Up)) (s s1 s2 : σ) (id : ID) (ch : Option (Chan Down))
    (hv : b.ValidateNetworkContext ctx s = (Except.ok id, s1))
    (ha : b.ActivateRouter id s1 = (Except.ok ch, s2)) :
    (uplinksDispatched (Associate b Validate build sched ctx stream s).trace
      ++ (Associate b Validate build sched ctx stream s).pending).Perm
      (validFront Validate stream) := by
  have hloop := associateLoop_perm b Validate sched.during stream 0 [] s2
  simp only [List.nil_append] at hloop
  cases hr : (associateLoop b Validate sched.during stream 0 [] s2).ret with
  | none =>
    rw [Associate_blocked b Validate build sched ctx stream s s1 s2 id ch hv ha hr]
    simpa [uplinksDispatched, Event.asUplink] using hloop
  | some e =>
    rw [Associate_returned b Validate build sched ctx stream s s1 s2 id ch e hv ha hr]
    have hg := runPending_perm b.HandleUplink sched.after
      (associateLoop b Validate sched.during stream 0 [] s2).pending
      (b.DeactivateRouter id (associateLoop b Validate sched.during stream 0 [] s2).state).2
    simp only [uplinksDispatched] at hloop
    simp only [uplinksDispatched, List.filterMap_append, List.filterMap_cons, Event.asUplink,
      List.filterMap_nil, List.nil_append, List.filterMap_map, dispatched_of_uplink_calls,
      List.append_assoc]
    exact (List.Perm.append_left _ hg).trans hloop

theorem Publish_unauthenticated (b : Broker σ Ctx ID Up Down DUp Req Res E)
    (Validate : Down → Bool) (build : GoError E → GoError E) (sac : GoError E)
    (sched : Schedule) (ctx : Ctx)
    (stream : List (Except (Error E) Down)) (s s1 : σ) (err : Error E)
    (hv : b.ValidateNetworkContext ctx s = (Except.error err, s1)) :
    Publish b Validate build sac sched ctx stream s
      = ⟨some (build (some err)), [Event.validateNetworkContext ctx], s1, []⟩ := by
  simp [Publish, hv]

theorem Publish_blocked (b : Broker σ Ctx ID Up Down DUp Req Res E)
    (Validate : Down → Bool) (build : GoError E → GoError E) (sac : GoError E)
    (sched : Schedule) (ctx : Ctx)
    (stream : List (Except (Error E) Down)) (s s1 : σ) (id : ID)
    (hv : b.ValidateNetworkContext ctx s = (Except.ok id, s1))
    (hr : (publishLoop b Validate sac sched.during stream 0 [] s1).ret = none) :
    Publish b Validate build sac sched ctx stream s
      = ⟨none, Event.validateNetworkContext ctx ::
          (publishLoop b Validate sac sched.during stream 0 [] s1).trace,
          (publishLoop b Validate sac sched.during stream 0 [] s1).state,
          (publishLoop b Validate sac sched.during stream 0 [] s1).pending⟩ := by
  simp [Publish, hv, hr]

theorem Publish_returned (b : Broker σ Ctx ID Up Down DUp Req Res E)
    (Validate : Down → Bool) (build : GoError E → GoError E) (sac : GoError E)
    (sched : Schedule) (ctx : Ctx)
    (stream : List (Except (Error E) Down)) (s s1 : σ) (id : ID) (e : GoError E)
    (hv : b.ValidateNetworkContext ctx s = (Except.ok id, s1))
    (hr : (publishLoop b Validate sac sched.during stream 0 [] s1).ret = some e) :
    Publish b Validate build sac sched ctx stream s
      = ⟨some e, (Event.validateNetworkContext ctx ::
          (publishLoop b Validate sac sched.during stream 0 [] s1).trace)
          ++ (runPending b.HandleDownlink sched.after
              (publishLoop b Validate sac sched.during stream 0 [] s1).pending
              (publishLoop b Validate sac sched.during stream 0 [] s1).state).ran.map
                Event.handleDownlink,
          (runPending b.HandleDownlink sched.after
            (publishLoop b Validate sac sched.during stream 0 [] s1).pending
            (publishLoop b Validate sac sched.during stream 0 [] s1).state).state,
          (runPending b.HandleDownlink sched.after
            (publishLoop b Validate sac sched.during stream 0 [] s1).pending
            (publishLoop b Validate sac sched.during stream 0 [] s1).state).waiting⟩ := by
  simp [Publish, hv, hr]

theorem Publish_ret (b : Broker σ Ctx ID Up Down DUp Req Res E)
    (Validate : Down → Bool) (build : GoError E → GoError E) (sac : GoError E)
    (sched : Schedule) (ctx : Ctx)
    (stream : List (Except (Error E) Down)) (s s1 : σ) (id : ID)
    (hv : b.ValidateNetworkContext ctx s = (Except.ok id, s1)) :
    (Publish b Validate build sac sched ctx stream s).ret
      = loopResult sac "Invalid Downlink" (firstStop Validate stream) := by
  rw [← publishLoop_ret b Validate sac sched.during stream 0 [] s1]
  cases hr : (publishLoop b Validate sac sched.during stream 0 [] s1).ret with
  | none => rw [Publish_blocked b Validate build sac sched ctx stream s s1 id hv hr]
  | some e => rw [Publish_returned b Validate build sac sched ctx stream s s1 id e hv hr]

theorem Publish_started (b : Broker σ Ctx ID Up Down DUp Req Res E)
    (Validate : Down → Bool) (build : GoError E → GoError E) (sac : GoError E)
    (sched : Schedule) (ctx : Ctx)
    (stream : List (Except (Error E) Down)) (s s1 : σ) (id : ID)
    (hv : b.ValidateNetworkContext ctx s = (Except.ok id, s1)) :
    downlinksStarted (Publish b Validate build sac sched ctx stream s).trace
      = validFront Validate stream := by
  rw [← publishLoop_started b Validate sac sched.during stream 0 [] s1]
  cases hr : (publishLoop b Validate sac sched.during stream 0 [] s1).ret with
  | none =>
    rw [Publish_blocked b Validate build sac sched ctx stream s s1 id hv hr]
    simp [downlinksStarted, Event.asStartedDownlink]
  | some e =>
    rw [Publish_returned b Validate build sac sched ctx stream s s1 id e hv hr]
    simp [downlinksStarted, Event.asStartedDownlink, started_of_downlink_calls]

theorem Publish_perm (b : Broker σ Ctx ID Up Down DUp Req Res E)
    (Validate : Down → Bool) (build : GoError E → GoError E) (sac : GoError E)
    (sched : Schedule) (ctx : Ctx)
    (stream : List (Except (Error E) Down)) (s s1 : σ) (id : ID)
    (hv : b.ValidateNetworkContext ctx s = (Except.ok id, s1)) :
    (downlinksDispatched (Publish b Validate build sac sched ctx stream s).trace
      ++ (Publish b Validate build sac sched ctx stream s).pending).Perm
      (validFront Validate stream) := by
  have hloop := publishLoop_perm b Validate sac sched.during stream 0 [] s1
  simp only [List.nil_append] at hloop
  cases hr : (publishLoop b Validate sac sched.during stream 0 [] s1).ret with
  | none =>
    rw [Publish_blocked b Validate build sac sched ctx stream s s1 id hv hr]
    simpa [downlinksDispatched, Event.asDownlink] using hloop
  | some e =>
    rw [Publish_returned b Validate build sac sched ctx stream s s1 id e hv hr]
    have hg := runPending_perm b.HandleDownlink sched.after
      (publishLoop b Validate sac sched.during stream 0 [] s1).pending
      (publishLoop b Validate sac sched.during stream 0 [] s1).state
    simp only [downlinksDispatched] at hloop
    simp only [downlinksDispatched, List.filterMap_append, List.filterMap_cons,
      Event.asDownlink, List.filterMap_nil, List.nil_append, List.filterMap_map,
      dispatched_of_downlink_calls, List.append_assoc]
    exact (List.Perm.append_left _ hg).trans hloop

theorem Publish_sendAndClose (b : Broker σ Ctx ID Up Down DUp Req Res E)
    (Validate : Down → Bool) (build : GoError E → GoError E) (sac : GoError E)
    (sched : Schedule) (ctx : Ctx)
    (stream : List (Except (Error E) Down)) (s s1 : σ) (id : ID)
    (hv : b.ValidateNetworkContext ctx s = (Except.ok id, s1)) :
    sendAndCloseCount (Publish b Validate build sac sched ctx stream s).trace
      = if (firstStop Validate stream).any isEOFResult then 1 else 0 := by
  rw [← publishLoop_sendAndClose b Validate sac sched.during stream 0 [] s1]
  cases hr : (publishLoop b Validate sac sched.during stream 0 [] s1).ret with
  | none =>
    rw [Publish_blocked b Validate build sac sched ctx stream s s1 id hv hr]
    simp [sendAndCloseCount, Event.isSendAndClose]
  | some e =>
    rw [Publish_returned b Validate build sac sched ctx stream s s1 id e hv hr]
    simp [sendAndCloseCount, Event.isSendAndClose, closes_of_downlink_calls, List.filter_map]

/-- The value of `ValidateNetworkContext` is an error or an identity. -/
theorem validate_cases (b : Broker σ Ctx ID Up Down DUp Req Res E) (ctx : Ctx) (s : σ) :
    (∃ err s1, b.ValidateNetworkContext ctx s = (Except.error err, s1)) ∨
    (∃ id s1, b.ValidateNetworkContext ctx s = (Except.ok id, s1)) := by
  rcases h : b.ValidateNetworkContext ctx s with ⟨r, s1⟩
  cases r with
  | error err => exact Or.inl ⟨err, s1, rfl⟩
  | ok id => exact Or.inr ⟨id, s1, rfl⟩

/-- The value of `ActivateRouter` is an error or a channel. -/
theorem activateRouter_cases (b : Broker σ Ctx ID Up Down DUp Req Res E) (id : ID) (s : σ) :
    (∃ err s1, b.ActivateRouter id s = (Except.error err, s1)) ∨
    (∃ ch s1, b.ActivateRouter id s = (Except.ok ch, s1)) := by
  rcases h : b.ActivateRouter id s with ⟨r, s1⟩
  cases r with
  | error err => exact Or.inl ⟨err, s1, rfl⟩
  | ok ch => exact Or.inr ⟨ch, s1, rfl⟩

theorem loopResult_eq_none {M : Type} (onEOF : GoError E) (desc : String)
    (x : Option (Except (Error E) M)) :
    loopResult onEOF desc x = none ↔ x = none := by
  cases x with
  | none => simp [loopResult]
  | some r =>
    cases r with
    | error err => by_cases h : err.isEOF = true <;> simp [loopResult, h]
    | ok m => simp [loopResult, grpcErrf]

theorem loopResult_eq_nil {M : Type} (onEOF : GoError E) (desc : String)
    (x : Option (Except (Error E) M)) :
    loopResult onEOF desc x = some none ↔ (x.any isEOFResult = true ∧ onEOF = none) := by
  cases x with
  | none => simp [loopResult]
  | some r =>
    cases r with
    | error err =>
      by_cases h : err.isEOF = true
      · simp [loopResult, h, isEOFResult]
      · simp [loopResult, h, isEOFResult]
    | ok m => simp [loopResult, grpcErrf, isEOFResult]

theorem loopResult_of_eof {M : Type} (onEOF : GoError E) (desc : String)
    (x : Option (Except (Error E) M)) (h : x.any isEOFResult = true) :
    loopResult onEOF desc x = some onEOF := by
  cases x with
  | none => simp at h
  | some r =>
    cases r with
    | error err =>
      have : err.isEOF = true := by simpa [isEOFResult] using h
      simp [loopResult, this]
    | ok m => simp [isEOFResult] at h

theorem validFront_append_invalid {M : Type} (Validate : M → Bool)
    (front rest : List (Except (Error E) M)) (bad : M)
    (hfront : ∀ x ∈ front, goesOn Validate x = true) (hbad : Validate bad = false) :
    validFront Validate (front ++ Except.ok bad :: rest) = front.filterMap frameOf ∧
    firstStop Validate (front ++ Except.ok bad :: rest) = some (Except.ok bad) := by
  induction front with
  | nil => simp [validFront, firstStop, goesOn, hbad]
  | cons x xs ih =>
    have hx : goesOn Validate x = true := hfront x (List.mem_cons_self _ _)
    have ih2 := ih (fun y hy => hfront y (List.mem_cons_of_mem _ hy))
    simp only [validFront, firstStop] at ih2 ⊢
    simp only [List.cons_append, List.takeWhile_cons, List.dropWhile_cons, hx, if_true]
    refine ⟨?_, ih2.2⟩
    cases hf : frameOf x with
    | none => rw [List.filterMap_cons_none hf, List.filterMap_cons_none hf]; exact ih2.1
    | some m => rw [List.filterMap_cons_some hf, List.filterMap_cons_some hf, ih2.1]

theorem Subscribe_unauthenticated (b : Broker σ Ctx ID Up Down DUp Req Res E)
    (build : GoError E → GoError E) (Send : Nat → DUp → GoError E) (ctx : Ctx)
    (sel : List (Select DUp E)) (s s1 : σ) (err : Error E)
    (hv : b.ValidateNetworkContext ctx s = (Except.error err, s1)) :
    Subscribe b build Send ctx sel s
      = ⟨some (build (some err)), [Event.validateNetworkContext ctx], s1⟩ := by
  simp [Subscribe, hv]

theorem Subscribe_rejected (b : Broker σ Ctx ID Up Down DUp Req Res E)
    (build : GoError E → GoError E) (Send : Nat → DUp → GoError E) (ctx : Ctx)
    (sel : List (Select DUp E)) (s s1 s2 : σ) (id : ID) (err : Error E)
    (hv : b.ValidateNetworkContext ctx s = (Except.ok id, s1))
    (ha : b.ActivateHandler id s1 = (Except.error err, s2)) :
    Subscribe b build Send ctx sel s
      = ⟨some (build (some err)),
          [Event.validateNetworkContext ctx, Event.activateHandler id], s2⟩ := by
  simp [Subscribe, hv, ha]

theorem Subscribe_blocked (b : Broker σ Ctx ID Up Down DUp Req Res E)
    (build : GoError E → GoError E) (Send : Nat → DUp → GoError E) (ctx : Ctx)
    (sel : List (Select DUp E)) (s s1 s2 : σ) (id : ID) (ch : Option (Chan DUp))
    (hv : b.ValidateNetworkContext ctx s = (Except.ok id, s1))
    (ha : b.ActivateHandler id s1 = (Except.ok ch, s2))
    (hr : (subscribeLoop Send ch sel 0).1 = none) :
    Subscribe b build Send ctx sel s
      = ⟨none, [Event.validateNetworkContext ctx, Event.activateHandler id]
          ++ (subscribeLoop Send ch sel 0).2.map Event.sendUplink, s2⟩ := by
  simp [Subscribe, hv, ha, hr]

theorem Subscribe_returned (b : Broker σ Ctx ID Up Down DUp Req Res E)
    (build : GoError E → GoError E) (Send : Nat → DUp → GoError E) (ctx : Ctx)
    (sel : List (Select DUp E)) (s s1 s2 : σ) (id : ID) (ch : Option (Chan DUp))
    (e : GoError E)
    (hv : b.ValidateNetworkContext ctx s = (Except.ok id, s1))
    (ha : b.ActivateHandler id s1 = (Except.ok ch, s2))
    (hr : (subscribeLoop Send ch sel 0).1 = some e) :
    Subscribe b build Send ctx sel s
      = ⟨some e, [Event.validateNetworkContext ctx, Event.activateHandler id]
          ++ (subscribeLoop Send ch sel 0).2.map Event.sendUplink
          ++ [Event.deactivateHandler id], (b.DeactivateHandler id s2).2⟩ := by
  simp [Subscribe, hv, ha, hr]

theorem Activate_unauthenticated (b : Broker σ Ctx ID Up Down DUp Req Res E)
    (Validate : Req → Bool) (build : GoError E → GoError E) (ctx : Ctx) (req : Req)
    (s s1 : σ) (err : Error E)
    (hv : b.ValidateNetworkContext ctx s = (Except.error err, s1)) :
    Activate b Validate build ctx req s
      = ⟨some (none, build (some err)), [Event.validateNetworkContext ctx], s1⟩ := by
  simp [Activate, hv]

theorem Activate_invalid (b : Broker σ Ctx ID Up Down DUp Req Res E)
    (Validate : Req → Bool) (build : GoError E → GoError E) (ctx : Ctx) (req : Req)
    (s s1 : σ) (id : ID)
    (hv : b.ValidateNetworkContext ctx s = (Except.ok id, s1))
    (hq : Validate req = false) :
    Activate b Validate build ctx req s
      = ⟨some (none, some (Error.rpc Codes.InvalidArgument "Invalid Activation Request")),
          [Event.validateNetworkContext ctx], s1⟩ := by
  simp [Activate, hv, hq, grpcErrf]

theorem Activate_refused (b : Broker σ Ctx ID Up Down DUp Req Res E)
    (Validate : Req → Bool) (build : GoError E → GoError E) (ctx : Ctx) (req : Req)
    (s s1 s2 : σ) (id : ID) (err : Error E)
    (hv : b.ValidateNetworkContext ctx s = (Except.ok id, s1))
    (hq : Validate req = true)
    (hh : b.HandleActivation req s1 = (Except.error err, s2)) :
    Activate b Validate build ctx req s
      = ⟨some (none, build (some err)),
          [Event.validateNetworkContext ctx, Event.handleActivation req], s2⟩ := by
  simp [Activate, hv, hq, hh]

theorem Activate_answered (b : Broker σ Ctx ID Up Down DUp Req Res E)
    (Validate : Req → Bool) (build : GoError E → GoError E) (ctx : Ctx) (req : Req)
    (s s1 s2 : σ) (id : ID) (res : Option Res)
    (hv : b.ValidateNetworkContext ctx s = (Except.ok id, s1))
    (hq : Validate req = true)
    (hh : b.HandleActivation req s1 = (Except.ok res, s2)) :
    Activate b Validate build ctx req s
      = ⟨some (res, none),
          [Event.validateNetworkContext ctx, Event.handleActivation req], s2⟩ := by
  simp [Activate, hv, hq, hh]

/-- The value of `HandleActivation` is an error or a response. -/
theorem handleActivation_cases (b : Broker σ Ctx ID Up Down DUp Req Res E) (req : Req) (s : σ) :
    (∃ err s1, b.HandleActivation req s = (Except.error err, s1)) ∨
    (∃ res s1, b.HandleActivation req s = (Except.ok res, s1)) := by
  rcases h : b.HandleActivation req s with ⟨r, s1⟩
  cases r with
  | error err => exact Or.inl ⟨err, s1, rfl⟩
  | ok res => exact Or.inr ⟨res, s1, rfl⟩

theorem subscribeLoop_sent (Send : Nat → DUp → GoError E) (ch : Chan DUp)
    (sel : List (Select DUp E)) (n : Nat) :
    (subscribeLoop Send (some ch) sel n).2 = sendUntilFailure Send (framesTaken sel) n := by
  induction sel generalizing n with
  | nil => simp [subscribeLoop, framesTaken, sendUntilFailure]
  | cons x rest ih =>
    cases x with
    | done e => simp [subscribeLoop, framesTaken, sendUntilFailure, Select.isValue]
    | value v =>
      cases v with
      | none =>
        have := ih n
        simp [subscribeLoop, framesTaken, Select.isValue, Select.frame] at this ⊢
        exact this
      | some m =>
        have := ih (n + 1)
        cases hs : Send n m with
        | none =>
          simp [subscribeLoop, framesTaken, Select.isValue, Select.frame, sendUntilFailure,
            hs] at this ⊢
          exact this
        | some err =>
          simp [subscribeLoop, framesTaken, Select.isValue, Select.frame, sendUntilFailure, hs]

theorem associateForward_sent (Send : Nat → Down → GoError E) (ch : Chan Down)
    (sel : List (Select Down E)) (n : Nat) :
    (associateForward Send (some ch) sel n).2 = sendUntilFailure Send (framesTaken sel) n := by
  induction sel generalizing n with
  | nil => simp [associateForward, framesTaken, sendUntilFailure]
  | cons x rest ih =>
    cases x with
    | done e => simp [associateForward, framesTaken, sendUntilFailure, Select.isValue]
    | value v =>
      cases v with
      | none =>
        have := ih n
        simp [associateForward, framesTaken, Select.isValue, Select.frame] at this ⊢
        exact this
      | some m =>
        have := ih (n + 1)
        cases hs : Send n m with
        | none =>
          simp [associateForward, framesTaken, Select.isValue, Select.frame, sendUntilFailure,
            hs] at this ⊢
          exact this
        | some err =>
          simp [associateForward, framesTaken, Select.isValue, Select.frame, sendUntilFailure,
            hs]

theorem sendUntilFailure_inOrder {M : Type} (Send : Nat → M → GoError E) (full : List M)
    (n : Nat) :
    DeliveredInOrder (fun i m => Send (n + i) m) (sendUntilFailure Send full n) full := by
  induction full generalizing n with
  | nil =>
    refine ⟨?_, ?_, Or.inl ?_⟩ <;> simp [sendUntilFailure]
  | cons a rest ih =>
    cases hs : Send n a with
    | some err =>
      have hsent : sendUntilFailure Send (a :: rest) n = [a] := by
        simp [sendUntilFailure, hs]
      rw [hsent]
      refine ⟨by simp, ?_, Or.inr ⟨a, by simp, by simp [hs]⟩⟩
      intro i m hi
      simp at hi
    | none =>
      have hsent : sendUntilFailure Send (a :: rest) n
          = a :: sendUntilFailure Send rest (n + 1) := by
        simp [sendUntilFailure, hs]
      rw [hsent]
      obtain ⟨h1, h2, h3⟩ := ih (n + 1)
      refine ⟨?_, ?_, ?_⟩
      · exact (List.prefix_cons_inj a).mpr h1
      · intro i m hi hm
        cases i with
        | zero =>
          simp at hm
          subst hm
          simpa using hs
        | succ j =>
          simp at hi hm
          have := h2 j m hi hm
          simp only at this ⊢
          rw [show n + (j + 1) = n + 1 + j by omega]
          exact this
      · rcases h3 with h3 | ⟨m, hm, hf⟩
        · exact Or.inl (by rw [h3])
        · refine Or.inr ⟨m, ?_, ?_⟩
          · cases hrest : sendUntilFailure Send rest (n + 1) with
            | nil => rw [hrest] at hm; simp at hm
            | cons c cs => rw [hrest] at hm; simpa [List.getLast?_cons_cons] using hm
          · cases hrest : sendUntilFailure Send rest (n + 1) with
            | nil => rw [hrest] at hm; simp at hm
            | cons c cs =>
              rw [hrest] at hf
              simp only [List.length_cons, Nat.add_sub_cancel] at hf ⊢
              rw [show n + (cs.length + 1) = n + 1 + cs.length by omega]
              exact hf

theorem Subscribe_sent (b : Broker σ Ctx ID Up Down DUp Req Res E)
    (build : GoError E → GoError E) (Send : Nat → DUp → GoError E) (ctx : Ctx)
    (sel : List (Select DUp E)) (s s1 s2 : σ) (id : ID) (ch : Option (Chan DUp))
    (hv : b.ValidateNetworkContext ctx s = (Except.ok id, s1))
    (ha : b.ActivateHandler id s1 = (Except.ok ch, s2)) :
    uplinksSent (Subscribe b build Send ctx sel s).trace = (subscribeLoop Send ch sel 0).2 := by
  have hmap : ∀ l : List DUp,
      List.filterMap Event.asSentUplink
        (l.map (Event.sendUplink : DUp → Event Ctx ID Up Down DUp Req)) = l := by
    intro l
    induction l with
    | nil => rfl
    | cons x xs ih => simp [Event.asSentUplink, ih]
  cases hr : (subscribeLoop Send ch sel 0).1 with
  | none =>
    rw [Subscribe_blocked b build Send ctx sel s s1 s2 id ch hv ha hr]
    simp [uplinksSent, Event.asSentUplink, hmap]
  | some e =>
    rw [Subscribe_returned b build Send ctx sel s s1 s2 id ch e hv ha hr]
    simp [uplinksSent, Event.asSentUplink, hmap]

theorem subscribeLoop_nil (Send : Nat → DUp → GoError E) (sel : List (Select DUp E))
    (n : Nat) : (subscribeLoop Send none sel n).1 = some none := by
  cases sel with
  | nil => simp [subscribeLoop]
  | cons x rest =>
    cases x with
    | done e => simp [subscribeLoop]
    | value v => cases v <;> simp [subscribeLoop]

theorem subscribeLoop_returns (Send : Nat → DUp → GoError E) (ch : Option (Chan DUp))
    (sel : List (Select DUp E)) (n : Nat) (h : ∃ x ∈ sel, Select.isValue x = false) :
    (subscribeLoop Send ch sel n).1 ≠ none := by
  cases ch with
  | none => rw [subscribeLoop_nil]; simp
  | some c =>
    induction sel generalizing n with
    | nil => simp at h
    | cons x rest ih =>
      cases x with
      | done e => simp [subscribeLoop]
      | value v =>
        have hrest : ∃ y ∈ rest, Select.isValue y = false := by
          obtain ⟨y, hy, hyv⟩ := h
          rcases List.mem_cons.mp hy with hy | hy
          · subst hy
            simp [Select.isValue] at hyv
          · exact ⟨y, hy, hyv⟩
        cases v with
        | none =>
          have := ih n hrest
          simpa [subscribeLoop] using this
        | some m =>
          cases hs : Send n m with
          | some err => simp [subscribeLoop, hs]
          | none =>
            have := ih (n + 1) hrest
            simpa [subscribeLoop, hs] using this

theorem Associate_shape (b : Broker σ Ctx ID Up Down DUp Req Res E)
    (Validate : Up → Bool) (build : GoError E → GoError E) (sched : Schedule) (ctx : Ctx)
    (stream : List (Except (Error E) Up)) (s s1 s2 : σ) (id : ID) (ch : Option (Chan Down))
    (hv : b.ValidateNetworkContext ctx s = (Except.ok id, s1))
    (ha : b.ActivateRouter id s1 = (Except.ok ch, s2)) :
    ∀ e ∈ (Associate b Validate build sched ctx stream s).trace,
      e = Event.validateNetworkContext ctx ∨ e = Event.activateRouter id ∨
      e = Event.goForward ch ∨ e = Event.recv ∨ e = Event.deactivateRouter id ∨
      (∃ m, e = Event.goHandleUplink m) ∨ (∃ m, e = Event.handleUplink m) := by
  intro e he
  have hloop := associateLoop_shape b Validate sched.during stream 0 [] s2
  cases hr : (associateLoop b Validate sched.during stream 0 [] s2).ret with
  | none =>
    rw [Associate_blocked b Validate build sched ctx stream s s1 s2 id ch hv ha hr] at he
    simp at he
    rcases he with he | he | he | he
    · exact Or.inl he
    · exact Or.inr (Or.inl he)
    · exact Or.inr (Or.inr (Or.inl he))
    · rcases hloop e he with h | h | h
      · exact Or.inr (Or.inr (Or.inr (Or.inl h)))
      · exact Or.inr (Or.inr (Or.inr (Or.inr (Or.inr (Or.inl h)))))
      · exact Or.inr (Or.inr (Or.inr (Or.inr (Or.inr (Or.inr h)))))
  | some r =>
    rw [Associate_returned b Validate build sched ctx stream s s1 s2 id ch r hv ha hr] at he
    simp at he
    rcases he with he | he | he | he | he | ⟨m, _, he⟩
    · exact Or.inl he
    · exact Or.inr (Or.inl he)
    · exact Or.inr (Or.inr (Or.inl he))
    · rcases hloop e he with h | h | h
      · exact Or.inr (Or.inr (Or.inr (Or.inl h)))
      · exact Or.inr (Or.inr (Or.inr (Or.inr (Or.inr (Or.inl h)))))
      · exact Or.inr (Or.inr (Or.inr (Or.inr (Or.inr (Or.inr h)))))
    · exact Or.inr (Or.inr (Or.inr (Or.inr (Or.inl he))))
    · exact Or.inr (Or.inr (Or.inr (Or.inr (Or.inr (Or.inr ⟨m, he.symm⟩)))))

theorem Publish_shape (b : Broker σ Ctx ID Up Down DUp Req Res E)
    (Validate : Down → Bool) (build : GoError E → GoError E) (sac : GoError E)
    (sched : Schedule) (ctx : Ctx)
    (stream : List (Except (Error E) Down)) (s s1 : σ) (id : ID)
    (hv : b.ValidateNetworkContext ctx s = (Except.ok id, s1)) :
    ∀ e ∈ (Publish b Validate build sac sched ctx stream s).trace,
      e = Event.validateNetworkContext ctx ∨ e = Event.recv ∨ e = Event.sendAndClose ∨
      (∃ m, e = Event.goHandleDownlink m) ∨ (∃ m, e = Event.handleDownlink m) := by
  intro e he
  have hloop := publishLoop_shape b Validate sac sched.during stream 0 [] s1
  cases hr : (publishLoop b Validate sac sched.during stream 0 [] s1).ret with
  | none =>
    rw [Publish_blocked b Validate build sac sched ctx stream s s1 id hv hr] at he
    simp at he
    rcases he with he | he
    · exact Or.inl he
    · exact Or.inr (hloop e he)
  | some r =>
    rw [Publish_returned b Validate build sac sched ctx stream s s1 id r hv hr] at he
    simp at he
    rcases he with he | he | ⟨m, _, he⟩
    · exact Or.inl he
    · exact Or.inr (hloop e he)
    · exact Or.inr (Or.inr (Or.inr (Or.inr ⟨m, he.symm⟩)))

/-! ## The claims -/

/-- C1: malformed input never reaches the engine.  In every run of `Associate`,
`Publish` and `Activate`, under every schedule of the goroutines, every frame
for which a goroutine calling `HandleUplink` or `HandleDownlink` is started,
every frame handed to `HandleUplink`, every frame handed to `HandleDownlink`
and every request handed to `HandleActivation` is one on which `Validate`
returned true. -/
theorem C1_only_validated_messages_reach_engine
    (b : Broker σ Ctx ID Up Down DUp Req Res E) (VUp : Up → Bool) (VDown : Down → Bool)
    (VReq : Req → Bool) (build : GoError E → GoError E) (sac : GoError E) (sched : Schedule)
    (ctx : Ctx) (ups : List (Except (Error E) Up)) (downs : List (Except (Error E) Down))
    (req : Req) (s : σ) :
    (∀ e ∈ (Associate b VUp build sched ctx ups s).trace,
      e.validated VUp VDown VReq = true) ∧
    (∀ e ∈ (Publish b VDown build sac sched ctx downs s).trace,
      e.validated VUp VDown VReq = true) ∧
    (∀ e ∈ (Activate b VReq build ctx req s).trace, e.validated VUp VDown VReq = true) := by
  refine ⟨?_, ?_, ?_⟩
  · intro e he
    rcases validate_cases b ctx s with ⟨err, s1, hv⟩ | ⟨id, s1, hv⟩
    · rw [Associate_unauthenticated b VUp build sched ctx ups s s1 err hv] at he
      simp at he
      subst he
      rfl
    · rcases activateRouter_cases b id s1 with ⟨err, s2, ha⟩ | ⟨ch, s2, ha⟩
      · rw [Associate_rejected b VUp build sched ctx ups s s1 s2 id err hv ha] at he
        simp at he
        rcases he with he | he <;> subst he <;> rfl
      · have hst := Associate_started b VUp build sched ctx ups s s1 s2 id ch hv ha
        have hpm := Associate_perm b VUp build sched ctx ups s s1 s2 id ch hv ha
        rcases Associate_shape b VUp build sched ctx ups s s1 s2 id ch hv ha e he with
          h | h | h | h | h | ⟨m, h⟩ | ⟨m, h⟩
        · subst h; rfl
        · subst h; rfl
        · subst h; rfl
        · subst h; rfl
        · subst h; rfl
        · subst h
          have hm : m ∈ uplinksStarted (Associate b VUp build sched ctx ups s).trace :=
            List.mem_filterMap.mpr ⟨_, he, rfl⟩
          rw [hst] at hm
          exact validFront_valid VUp ups m hm
        · subst h
          have hm : m ∈ uplinksDispatched (Associate b VUp build sched ctx ups s).trace :=
            List.mem_filterMap.mpr ⟨_, he, rfl⟩
          exact validFront_valid VUp ups m (hpm.subset (List.mem_append_left _ hm))
  · intro e he
    rcases validate_cases b ctx s with ⟨err, s1, hv⟩ | ⟨id, s1, hv⟩
    · rw [Publish_unauthenticated b VDown build sac sched ctx downs s s1 err hv] at he
      simp at he
      subst he
      rfl
    · have hst := Publish_started b VDown build sac sched ctx downs s s1 id hv
      have hpm := Publish_perm b VDown build sac sched ctx downs s s1 id hv
      rcases Publish_shape b VDown build sac sched ctx downs s s1 id hv e he with
        h | h | h | ⟨m, h⟩ | ⟨m, h⟩
      · subst h; rfl
      · subst h; rfl
      · subst h; rfl
      · subst h
        have hm : m ∈ downlinksStarted (Publish b VDown build sac sched ctx downs s).trace :=
          List.mem_filterMap.mpr ⟨_, he, rfl⟩
        rw [hst] at hm
        exact validFront_valid VDown downs m hm
      · subst h
        have hm : m ∈ downlinksDispatched (Publish b VDown build sac sched ctx downs s).trace :=
          List.mem_filterMap.mpr ⟨_, he, rfl⟩
        exact validFront_valid VDown downs m (hpm.subset (List.mem_append_left _ hm))
  · intro e he
    unfold Activate at he
    rcases hv : b.ValidateNetworkContext ctx s with ⟨r, s1⟩
    rw [hv] at he
    cases r with
    | error err =>
      simp at he
      subst he
      rfl
    | ok id =>
      by_cases hq : VReq req = true
      · rcases hh : b.HandleActivation req s1 with ⟨r2, s2⟩
        cases r2 <;>
        · simp [hq, hh] at he
          rcases he with he | he
          · subst he; rfl
          · subst he; simpa [Event.validated] using hq
      · simp [hq] at he
        subst he
        rfl

/-- C9: what the engine answers to a dispatched frame never reaches the
session.  Under every schedule of the goroutines, replacing `HandleUplink` and
`HandleDownlink` of a broker by any other functions leaves the value
`Associate` and `Publish` return, the whole sequence of calls made (hence the
frames dispatched) and the goroutines still waiting unchanged. -/
theorem C9_engine_answers_are_absorbed
    (b : Broker σ Ctx ID Up Down DUp Req Res E) (hU : Up → σ → GoError E × σ)
    (hD : Down → σ → GoError E × σ) (VUp : Up → Bool) (VDown : Down → Bool)
    (build : GoError E → GoError E) (sac : GoError E) (sched : Schedule) (ctx : Ctx)
    (ups : List (Except (Error E) Up)) (downs : List (Except (Error E) Down)) (s : σ) :
    (Associate { b with HandleUplink := hU, HandleDownlink := hD } VUp build sched ctx ups s).ret
      = (Associate b VUp build sched ctx ups s).ret ∧
    (Associate { b with HandleUplink := hU, HandleDownlink := hD } VUp build sched ctx ups s).trace
      = (Associate b VUp build sched ctx ups s).trace ∧
    uplinksDispatched
        (Associate { b with HandleUplink := hU, HandleDownlink := hD }
          VUp build sched ctx ups s).trace
      = uplinksDispatched (Associate b VUp build sched ctx ups s).trace ∧
    (Associate { b with HandleUplink := hU, HandleDownlink := hD }
        VUp build sched ctx ups s).pending
      = (Associate b VUp build sched ctx ups s).pending ∧
    (Publish { b with HandleUplink := hU, HandleDownlink := hD }
        VDown build sac sched ctx downs s).ret
      = (Publish b VDown build sac sched ctx downs s).ret ∧
    (Publish { b with HandleUplink := hU, HandleDownlink := hD }
        VDown build sac sched ctx downs s).trace
      = (Publish b VDown build sac sched ctx downs s).trace ∧
    downlinksDispatched
        (Publish { b with HandleUplink := hU, HandleDownlink := hD }
          VDown build sac sched ctx downs s).trace
      = downlinksDispatched (Publish b VDown build sac sched ctx downs s).trace ∧
    (Publish { b with HandleUplink := hU, HandleDownlink := hD }
        VDown build sac sched ctx downs s).pending
      = (Publish b VDown build sac sched ctx downs s).pending := by
  generalize hb2 : ({ b with HandleUplink := hU, HandleDownlink := hD } :
    Broker σ Ctx ID Up Down DUp Req Res E) = b2
  have hV : b2.ValidateNetworkContext = b.ValidateNetworkContext := by rw [← hb2]
  have hA : b2.ActivateRouter = b.ActivateRouter := by rw [← hb2]
  have hassoc : (Associate b2 VUp build sched ctx ups s).ret
        = (Associate b VUp build sched ctx ups s).ret ∧
      (Associate b2 VUp build sched ctx ups s).trace
        = (Associate b VUp build sched ctx ups s).trace ∧
      (Associate b2 VUp build sched ctx ups s).pending
        = (Associate b VUp build sched ctx ups s).pending := by
    rcases validate_cases b ctx s with ⟨err, s1, hv⟩ | ⟨id, s1, hv⟩
    · have hv2 : b2.ValidateNetworkContext ctx s = (Except.error err, s1) := by rw [hV, hv]
      rw [Associate_unauthenticated b VUp build sched ctx ups s s1 err hv,
        Associate_unauthenticated b2 VUp build sched ctx ups s s1 err hv2]
      exact ⟨rfl, rfl, rfl⟩
    · have hv2 : b2.ValidateNetworkContext ctx s = (Except.ok id, s1) := by rw [hV, hv]
      rcases activateRouter_cases b id s1 with ⟨err, s2, ha⟩ | ⟨ch, s2, ha⟩
      · have ha2 : b2.ActivateRouter id s1 = (Except.error err, s2) := by rw [hA, ha]
        rw [Associate_rejected b VUp build sched ctx ups s s1 s2 id err hv ha,
          Associate_rejected b2 VUp build sched ctx ups s s1 s2 id err hv2 ha2]
        exact ⟨rfl, rfl, rfl⟩
      · have ha2 : b2.ActivateRouter id s1 = (Except.ok ch, s2) := by rw [hA, ha]
        have hret : (associateLoop b2 VUp sched.during ups 0 [] s2).ret
            = (associateLoop b VUp sched.during ups 0 [] s2).ret := by
          rw [associateLoop_ret, associateLoop_ret]
        obtain ⟨htr, hpe⟩ := associateLoop_indep b2 b VUp sched.during ups 0 [] s2 s2
        cases hr : (associateLoop b VUp sched.during ups 0 [] s2).ret with
        | none =>
          rw [Associate_blocked b VUp build sched ctx ups s s1 s2 id ch hv ha hr,
            Associate_blocked b2 VUp build sched ctx ups s s1 s2 id ch hv2 ha2 (hret.trans hr)]
          exact ⟨rfl, by rw [htr], hpe⟩
        | some e =>
          rw [Associate_returned b VUp build sched ctx ups s s1 s2 id ch e hv ha hr,
            Associate_returned b2 VUp build sched ctx ups s s1 s2 id ch e hv2 ha2
              (hret.trans hr)]
          obtain ⟨hg1, hg2⟩ := runPending_indep b2.HandleUplink b.HandleUplink sched.after
            (associateLoop b VUp sched.during ups 0 [] s2).pending
            (b2.DeactivateRouter id (associateLoop b2 VUp sched.during ups 0 [] s2).state).2
            (b.DeactivateRouter id (associateLoop b VUp sched.during ups 0 [] s2).state).2
          refine ⟨rfl, ?_, ?_⟩
          · show _ ++ _ ++ (_ :: List.map _ _) = _ ++ _ ++ (_ :: List.map _ _)
            rw [htr, hpe, hg1]
          · show Ran.waiting _ = Ran.waiting _
            rw [hpe, hg2]
  have hpub : (Publish b2 VDown build sac sched ctx downs s).ret
        = (Publish b VDown build sac sched ctx downs s).ret ∧
      (Publish b2 VDown build sac sched ctx downs s).trace
        = (Publish b VDown build sac sched ctx downs s).trace ∧
      (Publish b2 VDown build sac sched ctx downs s).pending
        = (Publish b VDown build sac sched ctx downs s).pending := by
    rcases validate_cases b ctx s with ⟨err, s1, hv⟩ | ⟨id, s1, hv⟩
    · have hv2 : b2.ValidateNetworkContext ctx s = (Except.error err, s1) := by rw [hV, hv]
      rw [Publish_unauthenticated b VDown build sac sched ctx downs s s1 err hv,
        Publish_unauthenticated b2 VDown build sac sched ctx downs s s1 err hv2]
      exact ⟨rfl, rfl, rfl⟩
    · have hv2 : b2.ValidateNetworkContext ctx s = (Except.ok id, s1) := by rw [hV, hv]
      have hret : (publishLoop b2 VDown sac sched.during downs 0 [] s1).ret
          = (publishLoop b VDown sac sched.during downs 0 [] s1).ret := by
        rw [publishLoop_ret, publishLoop_ret]
      obtain ⟨htr, hpe⟩ := publishLoop_indep b2 b VDown sac sched.during downs 0 [] s1 s1
      cases hr : (publishLoop b VDown sac sched.during downs 0 [] s1).ret with
      | none =>
        rw [Publish_blocked b VDown build sac sched ctx downs s s1 id hv hr,
          Publish_blocked b2 VDown build sac sched ctx downs s s1 id hv2 (hret.trans hr)]
        exact ⟨rfl, by rw [htr], hpe⟩
      | some e =>
        rw [Publish_returned b VDown build sac sched ctx downs s s1 id e hv hr,
          Publish_returned b2 VDown build sac sched ctx downs s s1 id e hv2 (hret.trans hr)]
        obtain ⟨hg1, hg2⟩ := runPending_indep b2.HandleDownlink b.HandleDownlink sched.after
          (publishLoop b VDown sac sched.during downs 0 [] s1).pending
          (publishLoop b2 VDown sac sched.during downs 0 [] s1).state
          (publishLoop b VDown sac sched.during downs 0 [] s1).state
        refine ⟨rfl, ?_, ?_⟩
        · show (_ :: _) ++ List.map _ _ = (_ :: _) ++ List.map _ _
          rw [htr, hpe, hg1]
        · show Ran.waiting _ = Ran.waiting _
          rw [hpe, hg2]
  exact ⟨hassoc.1, hassoc.2.1, by rw [hassoc.2.1], hassoc.2.2,
    hpub.1, hpub.2.1, by rw [hpub.2.1], hpub.2.2⟩

/-- C3: a rejected activation does not disturb anything.  When
`ActivateRouter` returns an error, `Associate` returns that error passed
through `BuildGRPCError`, and the only calls it has made are
`ValidateNetworkContext` and `ActivateRouter`: no `DeactivateRouter`, no `Recv`
no goroutine started and no `HandleUplink`, under every schedule.  The same holds for `Subscribe` with `ActivateHandler`
and `DeactivateHandler`. -/
theorem C3_rejected_activation_is_returned_untouched
    (b : Broker σ Ctx ID Up Down DUp Req Res E) (VUp : Up → Bool)
    (build : GoError E → GoError E) (Send : Nat → DUp → GoError E) (sched : Schedule)
    (ctx : Ctx) (ups : List (Except (Error E) Up)) (sel : List (Select DUp E)) (s : σ) :
    (∀ id s1 err s2, b.ValidateNetworkContext ctx s = (Except.ok id, s1) →
      b.ActivateRouter id s1 = (Except.error err, s2) →
      (Associate b VUp build sched ctx ups s).ret = some (build (some err)) ∧
      (Associate b VUp build sched ctx ups s).trace
        = [Event.validateNetworkContext ctx, Event.activateRouter id] ∧
      (Associate b VUp build sched ctx ups s).state = s2 ∧
      (∀ e ∈ (Associate b VUp build sched ctx ups s).trace,
        e.isDeactivate = false ∧ e ≠ Event.recv ∧ e.asStartedUplink = none ∧
          e.asUplink = none) ∧
      (Associate b VUp build sched ctx ups s).pending = []) ∧
    (∀ id s1 err s2, b.ValidateNetworkContext ctx s = (Except.ok id, s1) →
      b.ActivateHandler id s1 = (Except.error err, s2) →
      (Subscribe b build Send ctx sel s).ret = some (build (some err)) ∧
      (Subscribe b build Send ctx sel s).trace
        = [Event.validateNetworkContext ctx, Event.activateHandler id] ∧
      (Subscribe b build Send ctx sel s).state = s2 ∧
      (∀ e ∈ (Subscribe b build Send ctx sel s).trace,
        e.isDeactivate = false ∧ e.asSentUplink = none)) := by
  refine ⟨?_, ?_⟩
  · intro id s1 err s2 hv ha
    rw [Associate_rejected b VUp build sched ctx ups s s1 s2 id err hv ha]
    refine ⟨rfl, rfl, rfl, ?_, rfl⟩
    intro e he
    simp at he
    rcases he with he | he <;> subst he <;>
      simp [Event.isDeactivate, Event.asUplink, Event.asStartedUplink]
  · intro id s1 err s2 hv ha
    rw [Subscribe_rejected b build Send ctx sel s s1 s2 id err hv ha]
    refine ⟨rfl, rfl, rfl, ?_⟩
    intro e he
    simp at he
    rcases he with he | he <;> subst he <;>
      simp [Event.isDeactivate, Event.asSentUplink]

/-- C3 witness: router 1 and handler 1 are already active in the demonstration
engine. -/
theorem C3_rejected_activation_is_returned_untouched_witness :
    (Associate demoBroker demoValidate demoBuildGRPCError demoLate 1
        [Except.ok 5, Except.error Error.EOF] ⟨[1], [1], [], []⟩).trace
      = [Event.validateNetworkContext 1, Event.activateRouter 1] ∧
    (Subscribe demoBroker demoBuildGRPCError demoSend 1
        [Select.value (some 5)] ⟨[1], [1], [], []⟩).trace
      = [Event.validateNetworkContext 1, Event.activateHandler 1] :=
  have h := C3_rejected_activation_is_returned_untouched demoBroker demoValidate
    demoBuildGRPCError demoSend demoLate 1 [Except.ok 5, Except.error Error.EOF]
    [Select.value (some 5)] ⟨[1], [1], [], []⟩
  ⟨(h.1 1 ⟨[1], [1], [], []⟩ (Error.other 1) ⟨[1], [1], [], []⟩ rfl rfl).2.1,
    (h.2 1 ⟨[1], [1], [], []⟩ (Error.other 1) ⟨[1], [1], [], []⟩ rfl rfl).2.1⟩

/-- C4: an unauthenticated caller never gets a session.  When
`ValidateNetworkContext` returns an error, each of the four entry points
returns that error passed through `BuildGRPCError` (a non-nil error as soon as
`BuildGRPCError` keeps errors non-nil) and `ValidateNetworkContext` is the only
call made, under every schedule: no `ActivateRouter`, `ActivateHandler`, `HandleDownlink` or
`HandleActivation`. -/
theorem C4_unauthenticated_caller_gets_no_session
    (b : Broker σ Ctx ID Up Down DUp Req Res E) (VUp : Up → Bool) (VDown : Down → Bool)
    (VReq : Req → Bool) (build : GoError E → GoError E) (Send : Nat → DUp → GoError E)
    (sac : GoError E) (sched : Schedule) (ctx : Ctx) (ups : List (Except (Error E) Up))
    (downs : List (Except (Error E) Down)) (sel : List (Select DUp E)) (req : Req)
    (s s1 : σ) (err : Error E)
    (hv : b.ValidateNetworkContext ctx s = (Except.error err, s1))
    (hB : ∀ e, build (some e) ≠ none) :
    ((Associate b VUp build sched ctx ups s).ret = some (build (some err)) ∧
      (Associate b VUp build sched ctx ups s).ret ≠ some none ∧
      (Associate b VUp build sched ctx ups s).trace = [Event.validateNetworkContext ctx]) ∧
    ((Subscribe b build Send ctx sel s).ret = some (build (some err)) ∧
      (Subscribe b build Send ctx sel s).ret ≠ some none ∧
      (Subscribe b build Send ctx sel s).trace = [Event.validateNetworkContext ctx]) ∧
    ((Publish b VDown build sac sched ctx downs s).ret = some (build (some err)) ∧
      (Publish b VDown build sac sched ctx downs s).ret ≠ some none ∧
      (Publish b VDown build sac sched ctx downs s).trace = [Event.validateNetworkContext ctx]) ∧
    ((Activate b VReq build ctx req s).ret = some (none, build (some err)) ∧
      (Activate b VReq build ctx req s).trace = [Event.validateNetworkContext ctx]) := by
  rw [Associate_unauthenticated b VUp build sched ctx ups s s1 err hv,
    Subscribe_unauthenticated b build Send ctx sel s s1 err hv,
    Publish_unauthenticated b VDown build sac sched ctx downs s s1 err hv,
    Activate_unauthenticated b VReq build ctx req s s1 err hv]
  have hne : some (build (some err)) ≠ some none := fun h => hB err (Option.some.inj h)
  exact ⟨⟨rfl, hne, rfl⟩, ⟨rfl, hne, rfl⟩, ⟨rfl, hne, rfl⟩, rfl, rfl⟩

/-- C4 witness: context 0 is not authenticated in the demonstration engine. -/
theorem C4_unauthenticated_caller_gets_no_session_witness :
    (Associate demoBroker demoValidate demoBuildGRPCError demoLate 0
        [Except.ok 5, Except.error Error.EOF] demoInit).trace
      = [Event.validateNetworkContext 0] ∧
    (Activate demoBroker demoValidate demoBuildGRPCError 0 5 demoInit).ret
      = some (none, some (Error.rpc Codes.Unknown "error")) :=
  have h := C4_unauthenticated_caller_gets_no_session demoBroker demoValidate demoValidate
    demoValidate demoBuildGRPCError demoSend none demoLate 0
    [Except.ok 5, Except.error Error.EOF]
    [Except.ok 5] [Select.value (some 5)] 5 demoInit demoInit
    (Error.rpc Codes.Unauthenticated "no identity") rfl
    (fun e h => by simp [demoBuildGRPCError] at h)
  ⟨h.1.2.2, h.2.2.2.1⟩

/-- C7: `Activate` yields a response or an error, never both.  It always
returns.  If context validation fails, the request fails `Validate`, or
`HandleActivation` returns an error, it returns a nil response with a non-nil
error (given that `BuildGRPCError` keeps errors non-nil); an invalid request
that passed context validation gets `InvalidArgument` and `HandleActivation` is
not called.  Otherwise it returns the response of `HandleActivation` with a nil
error, and `HandleActivation` has been called exactly once, with the request. -/
theorem C7_activate_response_or_error
    (b : Broker σ Ctx ID Up Down DUp Req Res E) (VReq : Req → Bool)
    (build : GoError E → GoError E) (ctx : Ctx) (req : Req) (s : σ)
    (hB : ∀ e, build (some e) ≠ none) :
    (∃ out, (Activate b VReq build ctx req s).ret = some out ∧ (out.1 = none ∨ out.2 = none)) ∧
    (((∃ err s1, b.ValidateNetworkContext ctx s = (Except.error err, s1)) ∨
        VReq req = false ∨
        (∃ err s2, b.HandleActivation req (b.ValidateNetworkContext ctx s).2
          = (Except.error err, s2))) →
      ∃ err, (Activate b VReq build ctx req s).ret = some (none, some err)) ∧
    (∀ id s1, b.ValidateNetworkContext ctx s = (Except.ok id, s1) → VReq req = false →
      (Activate b VReq build ctx req s).ret
        = some (none, some (Error.rpc Codes.InvalidArgument "Invalid Activation Request")) ∧
      activationsDispatched (Activate b VReq build ctx req s).trace = []) ∧
    (∀ id s1 res s2, b.ValidateNetworkContext ctx s = (Except.ok id, s1) → VReq req = true →
      b.HandleActivation req s1 = (Except.ok res, s2) →
      (Activate b VReq build ctx req s).ret = some (res, none) ∧
      activationsDispatched (Activate b VReq build ctx req s).trace = [req]) := by
  have hbuild : ∀ e, ∃ e2, build (some e) = some e2 := fun e =>
    Option.ne_none_iff_exists'.mp (hB e)
  refine ⟨?_, ?_, ?_, ?_⟩
  · rcases validate_cases b ctx s with ⟨err, s1, hv⟩ | ⟨id, s1, hv⟩
    · rw [Activate_unauthenticated b VReq build ctx req s s1 err hv]
      exact ⟨_, rfl, Or.inl rfl⟩
    · cases hq : VReq req with
      | false =>
        rw [Activate_invalid b VReq build ctx req s s1 id hv hq]
        exact ⟨_, rfl, Or.inl rfl⟩
      | true =>
        rcases handleActivation_cases b req s1 with ⟨err, s2, hh⟩ | ⟨res, s2, hh⟩
        · rw [Activate_refused b VReq build ctx req s s1 s2 id err hv hq hh]
          exact ⟨_, rfl, Or.inl rfl⟩
        · rw [Activate_answered b VReq build ctx req s s1 s2 id res hv hq hh]
          exact ⟨_, rfl, Or.inr rfl⟩
  · intro hfail
    rcases validate_cases b ctx s with ⟨err, s1, hv⟩ | ⟨id, s1, hv⟩
    · rw [Activate_unauthenticated b VReq build ctx req s s1 err hv]
      obtain ⟨e2, he2⟩ := hbuild err
      exact ⟨e2, by rw [he2]⟩
    · cases hq : VReq req with
      | false =>
        rw [Activate_invalid b VReq build ctx req s s1 id hv hq]
        exact ⟨_, rfl⟩
      | true =>
        rcases hfail with ⟨err, s1b, hv2⟩ | hq2 | ⟨err, s2, hh⟩
        · rw [hv] at hv2
          simp at hv2
        · rw [hq] at hq2
          simp at hq2
        · rw [hv] at hh
          rw [Activate_refused b VReq build ctx req s s1 s2 id err hv hq hh]
          obtain ⟨e2, he2⟩ := hbuild err
          exact ⟨e2, by rw [he2]⟩
  · intro id s1 hv hq
    rw [Activate_invalid b VReq build ctx req s s1 id hv hq]
    exact ⟨rfl, by simp [activationsDispatched, Event.asActivation]⟩
  · intro id s1 res s2 hv hq hh
    rw [Activate_answered b VReq build ctx req s s1 s2 id res hv hq hh]
    exact ⟨rfl, by simp [activationsDispatched, Event.asActivation]⟩

/-- C7 witness: in the demonstration engine request 5 is answered with 105 and
request 1 is refused. -/
theorem C7_activate_response_or_error_witness :
    (Activate demoBroker demoValidate demoBuildGRPCError 1 5 demoInit).ret
      = some (some 105, none) ∧
    (∃ err, (Activate demoBroker demoValidate demoBuildGRPCError 1 1 demoInit).ret
      = some (none, some err)) :=
  ⟨((C7_activate_response_or_error demoBroker demoValidate demoBuildGRPCError 1 5 demoInit
      (fun e h => by simp [demoBuildGRPCError] at h)).2.2.2
        1 demoInit (some 105) demoInit rfl rfl rfl).1,
    (C7_activate_response_or_error demoBroker demoValidate demoBuildGRPCError 1 1 demoInit
      (fun e h => by simp [demoBuildGRPCError] at h)).2.1
        (Or.inr (Or.inr ⟨Error.other 2, demoInit, rfl⟩))⟩

/-- C6: outbound frames are delivered in enqueue order.  With a non-nil
channel, the frames the `Subscribe` loop passes to `stream.Send`, and the
frames the forwarding goroutine of `Associate` passes to `stream.Send`, are an
initial segment of the non-nil frames the channel delivers before the stream
context is done, in the same order; every call of `Send` but the last
succeeded; and either all those frames were sent or the last call of `Send`
failed.  So nothing is skipped or duplicated, and nothing is sent after the
first failure of `Send` or after the context is done.  The calls of
`stream.Send` in a run of `Subscribe` are those of its loop. -/
theorem C6_outbound_frames_in_channel_order
    (b : Broker σ Ctx ID Up Down DUp Req Res E) (build : GoError E → GoError E) (ctx : Ctx)
    (s : σ) (SendU : Nat → DUp → GoError E) (SendD : Nat → Down → GoError E)
    (chU : Chan DUp) (chD : Chan Down)
    (selU : List (Select DUp E)) (selD : List (Select Down E)) :
    DeliveredInOrder SendU (subscribeLoop SendU (some chU) selU 0).2 (framesTaken selU) ∧
    DeliveredInOrder SendD (associateForward SendD (some chD) selD 0).2 (framesTaken selD) ∧
    (∀ id s1 s2, b.ValidateNetworkContext ctx s = (Except.ok id, s1) →
      b.ActivateHandler id s1 = (Except.ok (some chU), s2) →
      DeliveredInOrder SendU (uplinksSent (Subscribe b build SendU ctx selU s).trace)
        (framesTaken selU)) := by
  have hU : DeliveredInOrder SendU (subscribeLoop SendU (some chU) selU 0).2
      (framesTaken selU) := by
    rw [subscribeLoop_sent]
    simpa using sendUntilFailure_inOrder SendU (framesTaken selU) 0
  refine ⟨hU, ?_, ?_⟩
  · rw [associateForward_sent]
    simpa using sendUntilFailure_inOrder SendD (framesTaken selD) 0
  · intro id s1 s2 hv ha
    rw [Subscribe_sent b build SendU ctx selU s s1 s2 id (some chU) hv ha]
    exact hU

/-- C6 witness: the demonstration engine with handler 1 and a channel that
delivers 5, a nil frame and 6 before the context is done, and 7 after. -/
theorem C6_outbound_frames_in_channel_order_witness :
    DeliveredInOrder demoSend
      (uplinksSent (Subscribe demoBroker demoBuildGRPCError demoSend 1
        [Select.value (some 5), Select.value none, Select.value (some 6),
          Select.done (Error.rpc Codes.Canceled "context canceled"),
          Select.value (some 7)] demoInit).trace)
      (framesTaken ([Select.value (some 5), Select.value none, Select.value (some 6),
          Select.done (Error.rpc Codes.Canceled "context canceled"),
          Select.value (some 7)] : List (Select Nat Nat))) :=
  (C6_outbound_frames_in_channel_order demoBroker demoBuildGRPCError 1 demoInit demoSend
    demoSend ⟨1⟩ ⟨1⟩ _ [Select.value (some 5)]).2.2 1 demoInit ⟨[], [1], [], []⟩ rfl rfl

theorem Subscribe_ret (b : Broker σ Ctx ID Up Down DUp Req Res E)
    (build : GoError E → GoError E) (Send : Nat → DUp → GoError E) (ctx : Ctx)
    (sel : List (Select DUp E)) (s s1 s2 : σ) (id : ID) (ch : Option (Chan DUp))
    (hv : b.ValidateNetworkContext ctx s = (Except.ok id, s1))
    (ha : b.ActivateHandler id s1 = (Except.ok ch, s2)) :
    (Subscribe b build Send ctx sel s).ret = (subscribeLoop Send ch sel 0).1 := by
  cases hr : (subscribeLoop Send ch sel 0).1 with
  | none => rw [Subscribe_blocked b build Send ctx sel s s1 s2 id ch hv ha hr]
  | some e => rw [Subscribe_returned b build Send ctx sel s s1 s2 id ch e hv ha hr]

/-- C2, as the code has it: a frame that fails `Validate` ends the stream it
arrives on.  On an activated `Associate` stream whose first invalid frame comes
after valid frames only, under every schedule of the goroutines, `Associate`
returns `InvalidArgument`, the frames for which a goroutine calling
`HandleUplink` is started are exactly the ones received before the invalid
frame, the frames handed to `HandleUplink` together with the ones whose
goroutine is still waiting are those same frames, and `DeactivateRouter` is
called, followed by calls of `HandleUplink` only.  `Publish` likewise returns
`InvalidArgument` and hands the engine the frames received before the invalid
one and no other. -/
theorem C2_invalid_frame_ends_the_stream
    (b : Broker σ Ctx ID Up Down DUp Req Res E) (VUp : Up → Bool) (VDown : Down → Bool)
    (build : GoError E → GoError E) (sac : GoError E) (sched : Schedule) (ctx : Ctx)
    (front rest : List (Except (Error E) Up)) (bad : Up)
    (dfront drest : List (Except (Error E) Down)) (dbad : Down) (s : σ)
    (hfront : ∀ x ∈ front, goesOn VUp x = true) (hbad : VUp bad = false)
    (hdfront : ∀ x ∈ dfront, goesOn VDown x = true) (hdbad : VDown dbad = false) :
    (∀ id s1 ch s2, b.ValidateNetworkContext ctx s = (Except.ok id, s1) →
      b.ActivateRouter id s1 = (Except.ok ch, s2) →
      (Associate b VUp build sched ctx (front ++ Except.ok bad :: rest) s).ret
        = some (some (Error.rpc Codes.InvalidArgument "Invalid Uplink")) ∧
      uplinksStarted (Associate b VUp build sched ctx (front ++ Except.ok bad :: rest) s).trace
        = front.filterMap frameOf ∧
      (uplinksDispatched
          (Associate b VUp build sched ctx (front ++ Except.ok bad :: rest) s).trace
        ++ (Associate b VUp build sched ctx (front ++ Except.ok bad :: rest) s).pending).Perm
          (front.filterMap frameOf) ∧
      ∃ pre post, (Associate b VUp build sched ctx (front ++ Except.ok bad :: rest) s).trace
          = pre ++ Event.deactivateRouter id :: post ∧
        ∀ e ∈ post, e.isHandleUplink = true) ∧
    (∀ id s1, b.ValidateNetworkContext ctx s = (Except.ok id, s1) →
      (Publish b VDown build sac sched ctx (dfront ++ Except.ok dbad :: drest) s).ret
        = some (some (Error.rpc Codes.InvalidArgument "Invalid Downlink")) ∧
      downlinksStarted
          (Publish b VDown build sac sched ctx (dfront ++ Except.ok dbad :: drest) s).trace
        = dfront.filterMap frameOf ∧
      (downlinksDispatched
          (Publish b VDown build sac sched ctx (dfront ++ Except.ok dbad :: drest) s).trace
        ++ (Publish b VDown build sac sched ctx (dfront ++ Except.ok dbad :: drest) s).pending).Perm
          (dfront.filterMap frameOf)) := by
  refine ⟨?_, ?_⟩
  · intro id s1 ch s2 hv ha
    have hvf := validFront_append_invalid VUp front rest bad hfront hbad
    have hret : (Associate b VUp build sched ctx (front ++ Except.ok bad :: rest) s).ret
        = some (some (Error.rpc Codes.InvalidArgument "Invalid Uplink")) := by
      rw [Associate_ret b VUp build sched ctx _ s s1 s2 id ch hv ha, hvf.2]
      simp [loopResult, grpcErrf]
    refine ⟨hret, ?_, ?_, ?_⟩
    · rw [Associate_started b VUp build sched ctx _ s s1 s2 id ch hv ha, hvf.1]
    · rw [← hvf.1]
      exact Associate_perm b VUp build sched ctx _ s s1 s2 id ch hv ha
    · have hr : (associateLoop b VUp sched.during (front ++ Except.ok bad :: rest) 0 [] s2).ret
          = some (some (Error.rpc Codes.InvalidArgument "Invalid Uplink")) := by
        rw [associateLoop_ret, hvf.2]
        simp [loopResult, grpcErrf]
      rw [Associate_returned b VUp build sched ctx _ s s1 s2 id ch _ hv ha hr]
      refine ⟨_, _, rfl, ?_⟩
      intro e he
      obtain ⟨m, _, hm⟩ := List.mem_map.mp he
      rw [← hm]
      rfl
  · intro id s1 hv
    have hvf := validFront_append_invalid VDown dfront drest dbad hdfront hdbad
    refine ⟨?_, ?_, ?_⟩
    · rw [Publish_ret b VDown build sac sched ctx _ s s1 id hv, hvf.2]
      simp [loopResult, grpcErrf]
    · rw [Publish_started b VDown build sac sched ctx _ s s1 id hv, hvf.1]
    · rw [← hvf.1]
      exact Publish_perm b VDown build sac sched ctx _ s s1 id hv

/-- C2 witness: the demonstration engine on the uplink stream `[5, 0, 7]` and
the downlink stream `[0, 7]`, frame 0 being invalid. -/
theorem C2_invalid_frame_ends_the_stream_witness :
    uplinksStarted (Associate demoBroker demoValidate demoBuildGRPCError demoEager 1
        ([Except.ok 5] ++ Except.ok 0 :: [Except.ok 7]) demoInit).trace
      = [Except.ok 5].filterMap (frameOf : Except (Error Nat) Nat → Option Nat) ∧
    (Publish demoBroker demoValidate demoBuildGRPCError none demoEager 1
        ([] ++ Except.ok 0 :: [Except.ok 7]) demoInit).ret
      = some (some (Error.rpc Codes.InvalidArgument "Invalid Downlink")) :=
  have h := C2_invalid_frame_ends_the_stream demoBroker demoValidate demoValidate
    demoBuildGRPCError none demoEager 1 [Except.ok 5] [Except.ok 7] 0 [] [Except.ok 7] 0
    demoInit (by decide) (by decide) (by decide) (by decide)
  ⟨(h.1 1 demoInit (some ⟨1⟩) ⟨[1], [], [], []⟩ rfl rfl).2.1, (h.2 1 demoInit rfl).1⟩

/-- C2 counterexample: in the demonstration engine, on the uplink stream
`[0, 7]` with frame 0 invalid and frame 7 valid, `Associate` returns
`InvalidArgument`, router 1 is deactivated, and frame 7 gets no goroutine and
is never handed to the engine. -/
theorem C2_counterexample :
    demoValidate 0 = false ∧ demoValidate 7 = true ∧
    (Associate demoBroker demoValidate demoBuildGRPCError demoEager 1
        [Except.ok 0, Except.ok 7] demoInit).ret
      = some (some (Error.rpc Codes.InvalidArgument "Invalid Uplink")) ∧
    Event.deactivateRouter 1 ∈ (Associate demoBroker demoValidate demoBuildGRPCError demoEager 1
        [Except.ok 0, Except.ok 7] demoInit).trace ∧
    7 ∉ uplinksStarted (Associate demoBroker demoValidate demoBuildGRPCError demoEager 1
        [Except.ok 0, Except.ok 7] demoInit).trace ∧
    7 ∉ uplinksDispatched (Associate demoBroker demoValidate demoBuildGRPCError demoEager 1
        [Except.ok 0, Except.ok 7] demoInit).trace := by
  decide

/-- C5, as the code has it: returning always triggers cleanup, and the
goroutines may still be running.  Every run of `Associate` that activated
router `id` returns as soon as the stream has an EOF, a receive error or an
invalid frame; when it returns, `DeactivateRouter id` is called exactly once,
after every `go` statement of the run, and only calls of `HandleUplink`, made
by goroutines that had not run yet, come after it.  Every run of `Subscribe`
that activated handler `id` returns when the channel is nil and, at the latest,
when its `select` takes the done case; when it returns, the run ends with a
call of `DeactivateHandler id`, the only deactivation in the run, after every
call of `stream.Send`. -/
theorem C5_return_deactivates_exactly_once
    (b : Broker σ Ctx ID Up Down DUp Req Res E) (VUp : Up → Bool)
    (build : GoError E → GoError E) (Send : Nat → DUp → GoError E) (sched : Schedule)
    (ctx : Ctx) (ups : List (Except (Error E) Up)) (sel : List (Select DUp E)) (s : σ) :
    (∀ id s1 ch s2, b.ValidateNetworkContext ctx s = (Except.ok id, s1) →
      b.ActivateRouter id s1 = (Except.ok ch, s2) →
      (firstStop VUp ups ≠ none → (Associate b VUp build sched ctx ups s).ret ≠ none) ∧
      ((Associate b VUp build sched ctx ups s).ret ≠ none →
        ∃ front back, (Associate b VUp build sched ctx ups s).trace
            = front ++ Event.deactivateRouter id :: back ∧
          (∀ e ∈ front, e.isDeactivate = false) ∧
          (∀ e ∈ back, e.isHandleUplink = true) ∧
          uplinksStarted front
            = uplinksStarted (Associate b VUp build sched ctx ups s).trace)) ∧
    (∀ id s1 ch s2, b.ValidateNetworkContext ctx s = (Except.ok id, s1) →
      b.ActivateHandler id s1 = (Except.ok ch, s2) →
      ((ch = none ∨ ∃ x ∈ sel, Select.isValue x = false) →
        (Subscribe b build Send ctx sel s).ret ≠ none) ∧
      ((Subscribe b build Send ctx sel s).ret ≠ none →
        ∃ front, (Subscribe b build Send ctx sel s).trace
            = front ++ [Event.deactivateHandler id] ∧
          (∀ e ∈ front, e.isDeactivate = false) ∧
          uplinksSent front = uplinksSent (Subscribe b build Send ctx sel s).trace)) := by
  refine ⟨?_, ?_⟩
  · intro id s1 ch s2 hv ha
    refine ⟨?_, ?_⟩
    · intro hstop hret
      rw [Associate_ret b VUp build sched ctx ups s s1 s2 id ch hv ha,
        loopResult_eq_none] at hret
      exact hstop hret
    · intro hret
      cases hr : (associateLoop b VUp sched.during ups 0 [] s2).ret with
      | none =>
        rw [Associate_blocked b VUp build sched ctx ups s s1 s2 id ch hv ha hr] at hret
        exact absurd rfl hret
      | some e =>
        rw [Associate_returned b VUp build sched ctx ups s s1 s2 id ch e hv ha hr]
        refine ⟨_, _, rfl, ?_, ?_, ?_⟩
        · intro x hx
          simp at hx
          rcases hx with hx | hx | hx | hx
          · subst hx; rfl
          · subst hx; rfl
          · subst hx; rfl
          · rcases associateLoop_shape b VUp sched.during ups 0 [] s2 x hx with
              h | ⟨m, h⟩ | ⟨m, h⟩ <;> subst h <;> rfl
        · intro x hx
          obtain ⟨m, _, hm⟩ := List.mem_map.mp hx
          rw [← hm]
          rfl
        · simp [uplinksStarted, Event.asStartedUplink, started_of_uplink_calls]
  · intro id s1 ch s2 hv ha
    refine ⟨?_, ?_⟩
    · intro hcause
      rw [Subscribe_ret b build Send ctx sel s s1 s2 id ch hv ha]
      rcases hcause with hnil | hdone
      · rw [hnil, subscribeLoop_nil]
        simp
      · exact subscribeLoop_returns Send ch sel 0 hdone
    · intro hret
      cases hr : (subscribeLoop Send ch sel 0).1 with
      | none =>
        rw [Subscribe_blocked b build Send ctx sel s s1 s2 id ch hv ha hr] at hret
        exact absurd rfl hret
      | some e =>
        rw [Subscribe_returned b build Send ctx sel s s1 s2 id ch e hv ha hr]
        refine ⟨_, rfl, ?_, ?_⟩
        · intro x hx
          simp at hx
          rcases hx with hx | hx | ⟨m, _, hx⟩
          · subst hx; rfl
          · subst hx; rfl
          · subst hx; rfl
        · simp [uplinksSent, Event.asSentUplink]

/-- C5 witness: in the demonstration engine `Associate` on `[5, EOF]` returns
and deactivates router 1, and `Subscribe` on a channel that delivers 5 before
the context is done returns and ends with the deactivation of handler 1. -/
theorem C5_return_deactivates_exactly_once_witness :
    (∃ front back, (Associate demoBroker demoValidate demoBuildGRPCError demoLate 1
        [Except.ok 5, Except.error Error.EOF] demoInit).trace
          = front ++ Event.deactivateRouter 1 :: back ∧
      (∀ e ∈ front, e.isDeactivate = false) ∧
      (∀ e ∈ back, e.isHandleUplink = true) ∧
      uplinksStarted front = uplinksStarted
        (Associate demoBroker demoValidate demoBuildGRPCError demoLate 1
          [Except.ok 5, Except.error Error.EOF] demoInit).trace) ∧
    (Subscribe demoBroker demoBuildGRPCError demoSend 1
        [Select.value (some 5), Select.done (Error.rpc Codes.Canceled "context canceled")]
        demoInit).ret ≠ none ∧
    (∃ front, (Subscribe demoBroker demoBuildGRPCError demoSend 1
        [Select.value (some 5), Select.done (Error.rpc Codes.Canceled "context canceled")]
        demoInit).trace = front ++ [Event.deactivateHandler 1] ∧
      (∀ e ∈ front, e.isDeactivate = false) ∧
      uplinksSent front = uplinksSent
        (Subscribe demoBroker demoBuildGRPCError demoSend 1
          [Select.value (some 5), Select.done (Error.rpc Codes.Canceled "context canceled")]
          demoInit).trace) :=
  have h := C5_return_deactivates_exactly_once demoBroker demoValidate demoBuildGRPCError
    demoSend demoLate 1 [Except.ok 5, Except.error Error.EOF]
    [Select.value (some 5), Select.done (Error.rpc Codes.Canceled "context canceled")] demoInit
  have hsub := h.2 1 demoInit (some ⟨1⟩) ⟨[], [1], [], []⟩ rfl rfl
  have hret := hsub.1 (Or.inr ⟨Select.done (Error.rpc Codes.Canceled "context canceled"),
    by simp, rfl⟩)
  ⟨(h.1 1 demoInit (some ⟨1⟩) ⟨[1], [], [], []⟩ rfl rfl).2 (by decide), hret, hsub.2 hret⟩

/-- C5 counterexample: in the demonstration engine, `Associate` on `[5, EOF]`
under a schedule that runs the goroutine of frame 5 late, `DeactivateRouter 1`
is called before frame 5 is handed to `HandleUplink`. -/
theorem C5_counterexample :
    (Associate demoBroker demoValidate demoBuildGRPCError demoLate 1
        [Except.ok 5, Except.error Error.EOF] demoInit).trace
      = [Event.validateNetworkContext 1, Event.activateRouter 1, Event.goForward (some ⟨1⟩),
          Event.recv, Event.goHandleUplink 5, Event.recv, Event.deactivateRouter 1,
          Event.handleUplink 5] := by
  decide

/-- C10, as the code has it.  On an activated `Associate` stream, under every
schedule of the goroutines, the frames for which a goroutine calling
`HandleUplink` is started are exactly the frames received before the first EOF,
receive error or invalid frame, one goroutine each, started in receive order;
the frames handed to `HandleUplink`, in the order the scheduler runs the
goroutines, together with the frames whose goroutine is still waiting, are
those same frames, none lost and none twice; `Associate` returns nil exactly
when that first event is EOF, and has not returned exactly when there is no
such event.  `Publish` does the same with `HandleDownlink`, calls
`SendAndClose` once exactly when the first such event is EOF, and then returns
what `SendAndClose` returned: it returns nil exactly when the event is EOF and
`SendAndClose` returned nil. -/
theorem C10_dispatch_is_the_valid_front
    (b : Broker σ Ctx ID Up Down DUp Req Res E) (VUp : Up → Bool) (VDown : Down → Bool)
    (build : GoError E → GoError E) (sac : GoError E) (sched : Schedule) (ctx : Ctx)
    (ups : List (Except (Error E) Up)) (downs : List (Except (Error E) Down)) (s : σ) :
    (∀ id s1 ch s2, b.ValidateNetworkContext ctx s = (Except.ok id, s1) →
      b.ActivateRouter id s1 = (Except.ok ch, s2) →
      uplinksStarted (Associate b VUp build sched ctx ups s).trace = validFront VUp ups ∧
      (uplinksDispatched (Associate b VUp build sched ctx ups s).trace
        ++ (Associate b VUp build sched ctx ups s).pending).Perm (validFront VUp ups) ∧
      ((Associate b VUp build sched ctx ups s).ret = some none
        ↔ (firstStop VUp ups).any isEOFResult = true) ∧
      ((Associate b VUp build sched ctx ups s).ret = none ↔ firstStop VUp ups = none)) ∧
    (∀ id s1, b.ValidateNetworkContext ctx s = (Except.ok id, s1) →
      downlinksStarted (Publish b VDown build sac sched ctx downs s).trace
        = validFront VDown downs ∧
      (downlinksDispatched (Publish b VDown build sac sched ctx downs s).trace
        ++ (Publish b VDown build sac sched ctx downs s).pending).Perm
          (validFront VDown downs) ∧
      sendAndCloseCount (Publish b VDown build sac sched ctx downs s).trace
        = (if (firstStop VDown downs).any isEOFResult then 1 else 0) ∧
      ((firstStop VDown downs).any isEOFResult = true →
        (Publish b VDown build sac sched ctx downs s).ret = some sac) ∧
      ((Publish b VDown build sac sched ctx downs s).ret = some none
        ↔ ((firstStop VDown downs).any isEOFResult = true ∧ sac = none)) ∧
      ((Publish b VDown build sac sched ctx downs s).ret = none
        ↔ firstStop VDown downs = none)) := by
  refine ⟨?_, ?_⟩
  · intro id s1 ch s2 hv ha
    have hret := Associate_ret b VUp build sched ctx ups s s1 s2 id ch hv ha
    refine ⟨Associate_started b VUp build sched ctx ups s s1 s2 id ch hv ha,
      Associate_perm b VUp build sched ctx ups s s1 s2 id ch hv ha, ?_, ?_⟩
    · rw [hret, loopResult_eq_nil]
      simp
    · rw [hret, loopResult_eq_none]
  · intro id s1 hv
    have hret := Publish_ret b VDown build sac sched ctx downs s s1 id hv
    refine ⟨Publish_started b VDown build sac sched ctx downs s s1 id hv,
      Publish_perm b VDown build sac sched ctx downs s s1 id hv,
      Publish_sendAndClose b VDown build sac sched ctx downs s s1 id hv, ?_, ?_, ?_⟩
    · intro h
      rw [hret]
      exact loopResult_of_eof sac _ _ h
    · rw [hret, loopResult_eq_nil]
    · rw [hret, loopResult_eq_none]

/-- C10 witness: the demonstration engine, context 1, on the streams
`[5, 0, 7]` (frame 0 is invalid) and `[5, EOF]`. -/
theorem C10_dispatch_is_the_valid_front_witness :
    uplinksStarted (Associate demoBroker demoValidate demoBuildGRPCError demoLate 1
        [Except.ok 5, Except.ok 0, Except.ok 7] demoInit).trace = [5] ∧
    (Publish demoBroker demoValidate demoBuildGRPCError none demoLate 1
        [Except.ok 5, Except.error Error.EOF] demoInit).ret = some none := by
  have h := C10_dispatch_is_the_valid_front demoBroker demoValidate demoValidate
    demoBuildGRPCError none demoLate 1 [Except.ok 5, Except.ok 0, Except.ok 7]
    [Except.ok 5, Except.error Error.EOF] demoInit
  refine ⟨?_, ?_⟩
  · have h1 := (h.1 1 demoInit (some ⟨1⟩) ⟨[1], [], [], []⟩ rfl rfl).1
    rw [h1]
    decide
  · exact (h.2 1 demoInit rfl).2.2.2.2.1.mpr ⟨by decide, rfl⟩

/-- C10 counterexample: in the demonstration engine, `Associate` on
`[5, 6, EOF]` under a schedule that runs the goroutine of frame 6 before the
one of frame 5 hands the frames to `HandleUplink` in the order `[6, 5]`, which
is not receive order; and `Publish` on a stream whose first event is EOF, with
a `SendAndClose` that fails, does not return nil. -/
theorem C10_counterexample :
    validFront demoValidate
        ([Except.ok 5, Except.ok 6, Except.error Error.EOF] : List (Except (Error Nat) Nat))
      = [5, 6] ∧
    uplinksDispatched (Associate demoBroker demoValidate demoBuildGRPCError demoLate 1
        [Except.ok 5, Except.ok 6, Except.error Error.EOF] demoInit).trace = [6, 5] ∧
    ¬ ((Publish demoBroker demoValidate demoBuildGRPCError (some (Error.other 7)) demoLate 1
          [Except.ok 5, Except.error Error.EOF] demoInit).ret = some none
        ↔ (firstStop demoValidate
            ([Except.ok 5, Except.error Error.EOF] : List (Except (Error Nat) Nat))).any
              isEOFResult = true) := by
  decide

/-! ## The deduplicator -/

theorem wellKeyed_update (ents : Nat × Nat → Option DedupEntry) (k : Nat × Nat)
    (v : Option DedupEntry)
    (hents : ∀ fp e, ents fp = some e → e.best.fingerprint = fp)
    (hv : ∀ e, v = some e → e.best.fingerprint = k) :
    ∀ fp e, Function.update ents k v fp = some e → e.best.fingerprint = fp := by
  intro fp e h
  by_cases hk : fp = k
  · subst hk
    rw [Function.update_same] at h
    exact hv e h
  · rw [Function.update_noteq hk] at h
    exact hents fp e h

theorem deliveriesOf_append_other (fp : Nat × Nat) (l : List (Nat × UplinkFrame))
    (d : Nat × UplinkFrame) (h : d.2.fingerprint ≠ fp) :
    deliveriesOf fp (l ++ [d]) = deliveriesOf fp l := by
  simp [deliveriesOf, List.filter_append, h]

theorem deliveriesOf_append_same (fp : Nat × Nat) (l : List (Nat × UplinkFrame))
    (d : Nat × UplinkFrame) (h : d.2.fingerprint = fp) :
    deliveriesOf fp (l ++ [d]) = deliveriesOf fp l ++ [d] := by
  simp [deliveriesOf, List.filter_append, h]

theorem expire_none (R : Nat → Option Nat) (a : Nat → Bool) (fp : Nat × Nat)
    (st : Deduplicator) (he : st.entries fp = none) :
    Deduplicator.expire R a fp st = st := by
  simp [Deduplicator.expire, he]

theorem expire_unroutable (R : Nat → Option Nat) (a : Nat → Bool) (fp : Nat × Nat)
    (st : Deduplicator) (e : DedupEntry) (he : st.entries fp = some e)
    (hr : R e.best.devAddr = none) :
    Deduplicator.expire R a fp st
      = { st with entries := Function.update st.entries fp none,
                  unroutable := st.unroutable ++ [e.best] } := by
  simp [Deduplicator.expire, he, hr]

theorem expire_notFound (R : Nat → Option Nat) (a : Nat → Bool) (fp : Nat × Nat)
    (st : Deduplicator) (e : DedupEntry) (h : Nat) (he : st.entries fp = some e)
    (hr : R e.best.devAddr = some h) (ha : a h = false) :
    Deduplicator.expire R a fp st
      = { st with entries := Function.update st.entries fp none,
                  notFound := st.notFound ++ [(h, e.best)] } := by
  simp [Deduplicator.expire, he, hr, ha]

theorem expire_delivered (R : Nat → Option Nat) (a : Nat → Bool) (fp : Nat × Nat)
    (st : Deduplicator) (e : DedupEntry) (h : Nat) (he : st.entries fp = some e)
    (hr : R e.best.devAddr = some h) (ha : a h = true) :
    Deduplicator.expire R a fp st
      = { st with entries := Function.update st.entries fp none,
                  delivered := st.delivered ++ [(h, e.best)] } := by
  simp [Deduplicator.expire, he, hr, ha]

theorem receive_none (T : Nat) (R : Nat → Option Nat) (a : Nat → Bool) (f : UplinkFrame)
    (st : Deduplicator) (he : st.entries f.fingerprint = none) :
    Deduplicator.receive T R a f st
      = { st with entries := Function.update st.entries f.fingerprint (some (DedupEntry.fresh T f)) } := by
  simp [Deduplicator.receive, he]

theorem receive_within (T : Nat) (R : Nat → Option Nat) (a : Nat → Bool) (f : UplinkFrame)
    (st : Deduplicator) (e : DedupEntry) (he : st.entries f.fingerprint = some e)
    (hd : f.arrival < e.deadline) :
    Deduplicator.receive T R a f st
      = { st with entries := Function.update st.entries f.fingerprint (some (e.candidate f)) } := by
  simp [Deduplicator.receive, he, hd]

theorem receive_expired (T : Nat) (R : Nat → Option Nat) (a : Nat → Bool) (f : UplinkFrame)
    (st : Deduplicator) (e : DedupEntry) (he : st.entries f.fingerprint = some e)
    (hd : ¬ f.arrival < e.deadline) :
    Deduplicator.receive T R a f st
      = { Deduplicator.expire R a f.fingerprint st with
          entries := Function.update (Deduplicator.expire R a f.fingerprint st).entries
            f.fingerprint (some (DedupEntry.fresh T f)) } := by
  simp [Deduplicator.receive, he, hd]

theorem candidate_keeps_key (e : DedupEntry) (f : UplinkFrame)
    (hkey : e.best.fingerprint = f.fingerprint) :
    (e.candidate f).best.fingerprint = f.fingerprint := by
  by_cases hq : e.best.quality < f.quality
  · simp [DedupEntry.candidate, hq]
  · simp [DedupEntry.candidate, hq, hkey]

theorem expire_other (R : Nat → Option Nat) (a : Nat → Bool) (fp g : Nat × Nat)
    (st : Deduplicator) (hg : g ≠ fp) (hwk : st.WellKeyed) :
    (Deduplicator.expire R a g st).WellKeyed ∧
    (Deduplicator.expire R a g st).entries fp = st.entries fp ∧
    deliveriesOf fp (Deduplicator.expire R a g st).delivered
      = deliveriesOf fp st.delivered := by
  cases he : st.entries g with
  | none => rw [expire_none R a g st he]; exact ⟨hwk, rfl, rfl⟩
  | some e =>
    have hkey : e.best.fingerprint = g := hwk g e he
    have hwk2 : ∀ fp2 e2, Function.update st.entries g none fp2 = some e2 →
        e2.best.fingerprint = fp2 :=
      wellKeyed_update st.entries g none hwk (fun e2 h => by simp at h)
    have hent : Function.update st.entries g none fp = st.entries fp :=
      Function.update_noteq (Ne.symm hg) _ _
    cases hr : R e.best.devAddr with
    | none => rw [expire_unroutable R a g st e he hr]; exact ⟨hwk2, hent, rfl⟩
    | some h =>
      cases ha : a h with
      | false => rw [expire_notFound R a g st e h he hr ha]; exact ⟨hwk2, hent, rfl⟩
      | true =>
        rw [expire_delivered R a g st e h he hr ha]
        refine ⟨hwk2, hent, ?_⟩
        exact deliveriesOf_append_other fp st.delivered (h, e.best) (by rw [hkey]; exact hg)

theorem receive_other (T : Nat) (R : Nat → Option Nat) (a : Nat → Bool) (fp : Nat × Nat)
    (f : UplinkFrame) (st : Deduplicator) (hf : f.fingerprint ≠ fp) (hwk : st.WellKeyed) :
    (Deduplicator.receive T R a f st).WellKeyed ∧
    (Deduplicator.receive T R a f st).entries fp = st.entries fp ∧
    deliveriesOf fp (Deduplicator.receive T R a f st).delivered
      = deliveriesOf fp st.delivered := by
  cases he : st.entries f.fingerprint with
  | none =>
    rw [receive_none T R a f st he]
    refine ⟨?_, Function.update_noteq (Ne.symm hf) _ _, rfl⟩
    exact wellKeyed_update st.entries _ _ hwk (fun e2 h => by
      rw [← Option.some.inj h]; rfl)
  | some e =>
    have hkey : e.best.fingerprint = f.fingerprint := hwk _ e he
    by_cases hd : f.arrival < e.deadline
    · rw [receive_within T R a f st e he hd]
      refine ⟨?_, Function.update_noteq (Ne.symm hf) _ _, rfl⟩
      refine wellKeyed_update st.entries _ _ hwk (fun e2 h => ?_)
      rw [← Option.some.inj h]
      exact candidate_keeps_key e f hkey
    · rw [receive_expired T R a f st e he hd]
      obtain ⟨h1, h2, h3⟩ := expire_other R a fp f.fingerprint st hf hwk
      refine ⟨?_, ?_, h3⟩
      · exact wellKeyed_update _ _ _ h1 (fun e2 h => by
          rw [← Option.some.inj h]; rfl)
      · show Function.update _ _ _ fp = _
        rw [Function.update_noteq (Ne.symm hf)]
        exact h2

theorem isBestCandidate_snoc (d f : UplinkFrame) (acc : List UplinkFrame)
    (h : IsBestCandidate d acc) :
    IsBestCandidate (if d.quality < f.quality then f else d) (acc ++ [f]) := by
  obtain ⟨pre, post, hacc, hpre, hpost⟩ := h
  by_cases hq : d.quality < f.quality
  · simp only [hq, if_true]
    refine ⟨acc, [], by simp, ?_, by simp⟩
    intro x hx
    rw [hacc] at hx
    simp at hx
    rcases hx with hx | hx | hx
    · exact lt_trans (hpre x hx) hq
    · rw [hx]; exact hq
    · exact lt_of_le_of_lt (hpost x hx) hq
  · simp only [hq, if_false]
    refine ⟨pre, post ++ [f], by simp [hacc], hpre, ?_⟩
    intro x hx
    simp at hx
    rcases hx with hx | hx
    · exact hpost x hx
    · rw [hx]; exact not_lt.mp hq

theorem receive_same (T : Nat) (R : Nat → Option Nat) (a : Nat → Bool) (fp : Nat × Nat)
    (D : Nat) (base : List (Nat × UplinkFrame)) (f : UplinkFrame) (st : Deduplicator)
    (acc : List UplinkFrame) (hf : f.fingerprint = fp) (hD : f.arrival < D)
    (hc : st.Collecting fp D base acc) :
    (Deduplicator.receive T R a f st).Collecting fp D base (acc ++ [f]) := by
  obtain ⟨hwk, hbase, e, he, hdl, hbest⟩ := hc
  subst hf
  have hlt : f.arrival < e.deadline := by rw [hdl]; exact hD
  have hkey : e.best.fingerprint = f.fingerprint := hwk _ e he
  rw [receive_within T R a f st e he hlt]
  refine ⟨?_, hbase, e.candidate f, Function.update_same _ _ _, hdl,
    isBestCandidate_snoc _ f acc hbest⟩
  refine wellKeyed_update st.entries _ _ hwk (fun e2 h => ?_)
  rw [← Option.some.inj h]
  exact candidate_keeps_key e f hkey

theorem receive_first (T : Nat) (R : Nat → Option Nat) (a : Nat → Bool) (f : UplinkFrame)
    (st : Deduplicator) (hwk : st.WellKeyed) (hnone : st.entries f.fingerprint = none) :
    (Deduplicator.receive T R a f st).Collecting f.fingerprint (f.arrival + T)
      (deliveriesOf f.fingerprint st.delivered) [f] := by
  rw [receive_none T R a f st hnone]
  refine ⟨?_, rfl, DedupEntry.fresh T f, Function.update_same _ _ _, rfl,
    [], [], rfl, by simp, by simp⟩
  exact wellKeyed_update st.entries _ _ hwk (fun e2 h => by
    rw [← Option.some.inj h]; rfl)

theorem run_collecting (T : Nat) (R : Nat → Option Nat) (a : Nat → Bool) (fp : Nat × Nat)
    (D : Nat) (base : List (Nat × UplinkFrame)) (evs : List DedupEvent) :
    ∀ (st : Deduplicator) (acc : List UplinkFrame), st.Collecting fp D base acc →
      (∀ f, DedupEvent.receive f ∈ evs → f.fingerprint = fp → f.arrival < D) →
      DedupEvent.deadline fp ∉ evs →
      (Deduplicator.run T R a st evs).Collecting fp D base (acc ++ framesOf fp evs) := by
  induction evs with
  | nil =>
    intro st acc hc _ _
    simpa [Deduplicator.run, framesOf] using hc
  | cons ev rest ih =>
    intro st acc hc hwin hfire
    have hwin2 : ∀ f, DedupEvent.receive f ∈ rest → f.fingerprint = fp → f.arrival < D :=
      fun f hf => hwin f (List.mem_cons_of_mem _ hf)
    have hfire2 : DedupEvent.deadline fp ∉ rest :=
      fun h => hfire (List.mem_cons_of_mem _ h)
    cases ev with
    | receive f =>
      by_cases hf : f.fingerprint = fp
      · have hstep := receive_same T R a fp D base f st acc hf
          (hwin f (List.mem_cons_self _ _) hf) hc
        have := ih _ _ hstep hwin2 hfire2
        simpa [Deduplicator.run, Deduplicator.step, framesOf, hf] using this
      · obtain ⟨hwk, hbase, e, he, hdl, hbest⟩ := hc
        obtain ⟨h1, h2, h3⟩ := receive_other T R a fp f st hf hwk
        have hstep : (Deduplicator.receive T R a f st).Collecting fp D base acc :=
          ⟨h1, h3.trans hbase, e, h2.trans he, hdl, hbest⟩
        have := ih _ _ hstep hwin2 hfire2
        simpa [Deduplicator.run, Deduplicator.step, framesOf, hf] using this
    | deadline g =>
      have hg : g ≠ fp := fun h => hfire (by rw [h]; exact List.mem_cons_self _ _)
      obtain ⟨hwk, hbase, e, he, hdl, hbest⟩ := hc
      obtain ⟨h1, h2, h3⟩ := expire_other R a fp g st hg hwk
      have hstep : (Deduplicator.expire R a g st).Collecting fp D base acc :=
        ⟨h1, h3.trans hbase, e, h2.trans he, hdl, hbest⟩
      have := ih _ _ hstep hwin2 hfire2
      simpa [Deduplicator.run, Deduplicator.step, framesOf] using this

theorem expire_collecting (R : Nat → Option Nat) (a : Nat → Bool) (fp : Nat × Nat) (D h : Nat)
    (base : List (Nat × UplinkFrame)) (st : Deduplicator) (acc : List UplinkFrame)
    (hc : st.Collecting fp D base acc) (hdir : R fp.1 = some h) (hact : a h = true) :
    ∃ d, IsBestCandidate d acc ∧
      deliveriesOf fp (Deduplicator.expire R a fp st).delivered = base ++ [(h, d)] ∧
      (Deduplicator.expire R a fp st).entries fp = none := by
  obtain ⟨hwk, hbase, e, he, _, hbest⟩ := hc
  have hkey : e.best.fingerprint = fp := hwk fp e he
  have hdev : e.best.devAddr = fp.1 := by rw [← hkey]; rfl
  rw [expire_delivered R a fp st e h he (by rw [hdev]; exact hdir) hact]
  refine ⟨e.best, hbest, ?_, Function.update_same _ _ _⟩
  rw [← hbase]
  exact deliveriesOf_append_same fp st.delivered (h, e.best) hkey

/-- C8: dedup collapsing, on the deduplicator of the design document.  Let a
frame open the window of its fingerprint, let any events follow in which every
frame of that fingerprint arrives before the deadline of the window, and let
the deadline then fire.  If the directory resolves the device to a handler
with an active session, that handler is enqueued exactly one frame of the
fingerprint, and it is the candidate of best signal quality among all the
frames of the fingerprint, the first-arrived one among equals; the entry is
gone afterwards. -/
theorem C8_dedup_collapsing (Tdedup : Nat) (ResolveHandler : Nat → Option Nat)
    (active : Nat → Bool) (st : Deduplicator) (first : UplinkFrame) (evs : List DedupEvent)
    (h : Nat)
    (hwk : st.WellKeyed) (hnone : st.entries first.fingerprint = none)
    (hwin : ∀ f, DedupEvent.receive f ∈ evs → f.fingerprint = first.fingerprint →
      f.arrival < first.arrival + Tdedup)
    (hfire : DedupEvent.deadline first.fingerprint ∉ evs)
    (hdir : ResolveHandler first.devAddr = some h) (hact : active h = true) :
    ∃ d, IsBestCandidate d (first :: framesOf first.fingerprint evs) ∧
      deliveriesOf first.fingerprint
          (Deduplicator.run Tdedup ResolveHandler active st
            (DedupEvent.receive first :: evs
              ++ [DedupEvent.deadline first.fingerprint])).delivered
        = deliveriesOf first.fingerprint st.delivered ++ [(h, d)] ∧
      (Deduplicator.run Tdedup ResolveHandler active st
          (DedupEvent.receive first :: evs
            ++ [DedupEvent.deadline first.fingerprint])).entries first.fingerprint = none := by
  have h1 := receive_first Tdedup ResolveHandler active first st hwk hnone
  have h2 := run_collecting Tdedup ResolveHandler active first.fingerprint
    (first.arrival + Tdedup) _ evs _ _ h1 hwin hfire
  have h3 := expire_collecting ResolveHandler active first.fingerprint _ h _ _ _ h2 hdir hact
  simpa [Deduplicator.run, Deduplicator.step, List.foldl_append] using h3

/-- C8 witness: the scenario of the design document.  Router 1 reports a
transmission with quality -80 at time 0, router 2 reports it with quality -60
at time 50, the window is 200 long; handler 9 gets one delivery. -/
theorem C8_dedup_collapsing_witness :
    (∃ d, IsBestCandidate d
        (demoFrameA :: framesOf demoFrameA.fingerprint [DedupEvent.receive demoFrameB]) ∧
      deliveriesOf demoFrameA.fingerprint
          (Deduplicator.run 200 (fun _ => some 9) (fun _ => true) Deduplicator.init
            (DedupEvent.receive demoFrameA :: [DedupEvent.receive demoFrameB]
              ++ [DedupEvent.deadline demoFrameA.fingerprint])).delivered
        = deliveriesOf demoFrameA.fingerprint Deduplicator.init.delivered ++ [(9, d)] ∧
      (Deduplicator.run 200 (fun _ => some 9) (fun _ => true) Deduplicator.init
          (DedupEvent.receive demoFrameA :: [DedupEvent.receive demoFrameB]
            ++ [DedupEvent.deadline demoFrameA.fingerprint])).entries
              demoFrameA.fingerprint = none) ∧
    (Deduplicator.run 200 (fun _ => some 9) (fun _ => true) Deduplicator.init
        [DedupEvent.receive demoFrameA, DedupEvent.receive demoFrameB,
          DedupEvent.deadline demoFrameA.fingerprint]).delivered = [(9, demoFrameB)] :=
  ⟨C8_dedup_collapsing 200 (fun _ => some 9) (fun _ => true) Deduplicator.init demoFrameA
    [DedupEvent.receive demoFrameB] 9
    (fun fp e h => by simp [Deduplicator.init] at h)
    rfl
    (fun f hf _ => by
      simp at hf
      subst hf
      decide)
    (by decide) rfl rfl, by decide⟩


end Adapter

end TTN
